import Mathlib

/-!
Verification development for the otters in-memory DataFrame engine.

The Go sources (type.go, err.go, df.go, ops.go, stats.go) are shallowly
embedded below.  Modelling conventions:

* `int64` is modelled by `Int`, `float64` by `ℚ` (every floating-point
  operation exercised by the verified statements is exact on the inputs
  involved), `time.Time` by an `Int` instant, and Go strings by Lean
  `String` (character-counted; the length-prefix arithmetic of the group
  keys is alphabet-independent).
* Go's `map[string]*Series` is modelled by an association list carrying
  Go's map semantics (insert overwrites the entry for an existing key);
  map iteration order, which Go randomises, is made an explicit input
  wherever the source iterates over a map.
* Methods that can mutate their receiver are modelled in a state-passing
  style `DataFrame → args → DataFrame × result`: the first component is
  the receiver object as the method body leaves it, obtained by
  transcribing every assignment to a receiver field.
* Fallible operations return `Except OtterError α`.
-/

deriving instance DecidableEq for Except

namespace Otters

/-- ColumnType: the closed enumeration of scalar kinds (type.go). -/
inductive ColumnType where
  | stringType
  | int64Type
  | float64Type
  | boolType
  | timeType
deriving DecidableEq, Repr

/-- A scalar value (`interface{}` holding one of the five supported kinds). -/
inductive Value where
  | vstr (s : String)
  | vint (n : Int)
  | vfloat (q : ℚ)
  | vbool (b : Bool)
  | vtime (t : Int)
deriving DecidableEq, Repr

/-- Typed backing storage of one column (`Series.Data`): one homogeneous
slice per scalar kind. -/
inductive ColData where
  | strs (xs : List String)
  | ints (xs : List Int)
  | floats (xs : List ℚ)
  | bools (xs : List Bool)
  | times (xs : List Int)
deriving DecidableEq, Repr

def ColData.length : ColData → Nat
  | .strs xs => xs.length
  | .ints xs => xs.length
  | .floats xs => xs.length
  | .bools xs => xs.length
  | .times xs => xs.length

def ColData.ctype : ColData → ColumnType
  | .strs _ => .stringType
  | .ints _ => .int64Type
  | .floats _ => .float64Type
  | .bools _ => .boolType
  | .times _ => .timeType

/-- Series: one named, typed column (type.go).  The Go fields `Type` and
`Length` are derived from `Data` (their construction keeps them in sync). -/
structure Series where
  name : String
  data : ColData
deriving DecidableEq, Repr

def Series.length (s : Series) : Nat := s.data.length

def Series.type (s : Series) : ColumnType := s.data.ctype

/-- Series.Copy: a deep, independent duplicate.  Data is immutable in the
model, so the copy is the value itself. -/
def Series.copy (s : Series) : Series := s

def ColData.getVal : ColData → Nat → Option Value
  | .strs xs, i => (xs.get? i).map Value.vstr
  | .ints xs, i => (xs.get? i).map Value.vint
  | .floats xs, i => (xs.get? i).map Value.vfloat
  | .bools xs, i => (xs.get? i).map Value.vbool
  | .times xs, i => (xs.get? i).map Value.vtime

/-- Series.Get: bounds-checked element access (type.go).  `none` models the
index-out-of-range error. -/
def Series.get (s : Series) (i : Nat) : Option Value := s.data.getVal i

/-- NewSeries: in Go it infers the kind from the slice's runtime type and
errors on unsupported element kinds; the model's input is already one of
the five supported slices, so construction always succeeds. -/
def newSeries (name : String) (data : ColData) : Series := ⟨name, data⟩

/-- OtterError (err.go): operation, optional column, optional row (-1 mea-
ning not applicable), message.  The optional wrapped cause only feeds the
message in the model. -/
structure OtterError where
  op : String
  column : String
  row : Int
  msg : String
deriving DecidableEq, Repr

def newOpError (op msg : String) : OtterError := ⟨op, "", -1, msg⟩

def newColumnError (op column msg : String) : OtterError := ⟨op, column, -1, msg⟩

def wrapError (op : String) (cause : OtterError) : OtterError :=
  ⟨op, "", -1, cause.msg⟩

def wrapColumnError (op column : String) (cause : OtterError) : OtterError :=
  ⟨op, column, -1, cause.msg⟩

/-- Lookup in the name→Series map (Go `df.columns[name]`). -/
def mapLookup (m : List (String × Series)) (k : String) : Option Series :=
  (m.find? (fun p => p.1 == k)).map Prod.snd

/-- Map write `m[k] = v`: overwrites the entry for an existing key, else
adds one. -/
def mapInsert (m : List (String × Series)) (k : String) (v : Series) :
    List (String × Series) :=
  match m with
  | [] => [(k, v)]
  | p :: rest => if p.1 == k then (k, v) :: rest else p :: mapInsert rest k v

/-- Map delete `delete(m, k)`. -/
def mapRemove (m : List (String × Series)) (k : String) :
    List (String × Series) :=
  match m with
  | [] => []
  | p :: rest => if p.1 == k then rest else p :: mapRemove rest k

/-- Remove the first occurrence of `x` (the DropColumn order-slice loop,
which breaks after the first hit). -/
def listRemoveFirst (l : List String) (x : String) : List String :=
  match l with
  | [] => []
  | a :: rest => if a == x then rest else a :: listRemoveFirst rest x

/-- Replace the first occurrence of `x` by `y` (the RenameColumn order-slice
loop, which breaks after the first hit). -/
def listReplaceFirst (l : List String) (x y : String) : List String :=
  match l with
  | [] => []
  | a :: rest => if a == x then y :: rest else a :: listReplaceFirst rest x y

/-- The column-building loop shared by Copy, slice, selectRows and Select:
iterate a key list, look each key up in a fixed map, and append a derived
(key, series) pair to the accumulator frame (a missing key, impossible on
consistent frames, is skipped where Go would dereference nil). -/
def orderFoldAddAux (m : List (String × Series))
    (g : String → Series → String × Series) :
    List String → List (String × Series) → List String →
    List (String × Series) × List String
  | [], accCols, accOrder => (accCols, accOrder)
  | k :: rest, accCols, accOrder =>
    match mapLookup m k with
    | some s =>
      orderFoldAddAux m g rest (mapInsert accCols (g k s).1 (g k s).2)
        (accOrder ++ [(g k s).1])
    | none => orderFoldAddAux m g rest accCols accOrder

/-- DataFrame (type.go): name→Series map, column order, row count, and the
error state used for chaining. -/
structure DataFrame where
  columns : List (String × Series)
  order : List String
  length : Nat
  err : Option OtterError
deriving DecidableEq, Repr

/-- NewDataFrame: a fresh empty frame. -/
def newDataFrame : DataFrame := ⟨[], [], 0, none⟩

/-- setError (err.go, current version): returns a NEW DataFrame carrying
the error; the receiver is not written to. -/
def DataFrame.setError (_df : DataFrame) (e : OtterError) : DataFrame :=
  { newDataFrame with err := some e }

/-- addSeriesUnsafe (df.go): map write plus order append, no validation. -/
def DataFrame.addSeriesUnsafe (df : DataFrame) (s : Series) : DataFrame :=
  { df with columns := mapInsert df.columns s.name s,
            order := df.order ++ [s.name] }

/-- validateSameLength (err.go): all series must match the first one's
length.  The Go message interpolates the offending index and lengths; the
model uses a fixed message. -/
def validateSameLength (series : List Series) : Option OtterError :=
  match series with
  | [] => none
  | s0 :: _ =>
    if series.all (fun s => s.length == s0.length) then none
    else some (newOpError "DataValidation" "series length mismatch")

/-- NewDataFrameFromSeries (df.go): validates equal lengths, then adds every
series through addSeriesUnsafe.  Note: names are NOT checked for
uniqueness. -/
def newDataFrameFromSeries (series : List Series) :
    Except OtterError DataFrame :=
  match series with
  | [] => .ok newDataFrame
  | s0 :: _ =>
    match validateSameLength series with
    | some e => .error e
    | none =>
      .ok (series.foldl (fun df s => df.addSeriesUnsafe s)
            { newDataFrame with length := s0.length })

/-- NewDataFrameFromMap (df.go): builds one series per map entry in the
map's ENUMERATION order (Go randomises this order; it is the explicit input
list here) and delegates to NewDataFrameFromSeries.  No sorting of keys is
performed. -/
def newDataFrameFromMap (data : List (String × ColData)) :
    Except OtterError DataFrame :=
  match data with
  | [] => .ok newDataFrame
  | _ => newDataFrameFromSeries (data.map (fun p => newSeries p.1 p.2))

/-- Shape (df.go): (0, 0) in error state. -/
def DataFrame.shape (df : DataFrame) : Nat × Nat :=
  match df.err with
  | some _ => (0, 0)
  | none => (df.length, df.columns.length)

/-- Columns (df.go): empty in error state, else a copy of the order slice. -/
def DataFrame.columnsList (df : DataFrame) : List String :=
  match df.err with
  | some _ => []
  | none => df.order

/-- Len (df.go): 0 in error state. -/
def DataFrame.len (df : DataFrame) : Nat :=
  match df.err with
  | some _ => 0
  | none => df.length

/-- Width (df.go): 0 in error state. -/
def DataFrame.width (df : DataFrame) : Nat :=
  match df.err with
  | some _ => 0
  | none => df.columns.length

/-- IsEmpty (df.go): no rows or no columns (not error-guarded in Go). -/
def DataFrame.isEmpty (df : DataFrame) : Bool :=
  df.length == 0 || df.columns.length == 0

/-- HasColumn (df.go): false in error state. -/
def DataFrame.hasColumn (df : DataFrame) (name : String) : Bool :=
  match df.err with
  | some _ => false
  | none => (mapLookup df.columns name).isSome

/-- validateColumnExists (err.go). -/
def DataFrame.validateColumnExists (df : DataFrame) (name : String) :
    Option OtterError :=
  match df.err with
  | some e => some e
  | none =>
    if (mapLookup df.columns name).isSome then none
    else some (newColumnError "ColumnAccess" name "column does not exist")

/-- validateNotEmpty (err.go). -/
def DataFrame.validateNotEmpty (df : DataFrame) : Option OtterError :=
  match df.err with
  | some e => some e
  | none =>
    if df.length == 0 then
      some (newOpError "Operation" "cannot operate on empty DataFrame")
    else none

/-- validateColumnsExist (err.go): first failure wins. -/
def DataFrame.validateColumnsExist (df : DataFrame) (cols : List String) :
    Option OtterError :=
  match cols with
  | [] => (match df.err with | some e => some e | none => none)
  | c :: rest =>
    match df.validateColumnExists c with
    | some e => some e
    | none => df.validateColumnsExist rest

/-- GetColumnType (df.go). -/
def DataFrame.getColumnType (df : DataFrame) (name : String) :
    Except OtterError ColumnType :=
  match df.err with
  | some e => .error e
  | none =>
    match df.validateColumnExists name with
    | some e => .error e
    | none =>
      match mapLookup df.columns name with
      | some s => .ok s.type
      | none => .error (newColumnError "ColumnAccess" name "column does not exist")

/-- Copy (df.go): in error state a fresh frame with the same error; else a
deep per-column copy driven by the order slice.  Entries of `order` missing
from the map would make Go dereference nil; the model skips them (the
validity invariant below rules the case out). -/
def DataFrame.copy (df : DataFrame) : DataFrame :=
  match df.err with
  | some e => { newDataFrame with err := some e }
  | none =>
    let r := orderFoldAddAux df.columns (fun colName s => (colName, s.copy))
      df.order [] []
    ⟨r.1, r.2, df.length, none⟩

/-! ### Decimal serialisation (strconv.Itoa / strconv.FormatInt) -/

/-- The character of one decimal digit. -/
def digitChar (d : Nat) : Char := Char.ofNat (48 + d)

/-- Decimal digit run of a natural number, most significant first, with an
explicit structural fuel so that the definition computes by reduction.
`natRepr` below always supplies sufficient fuel. -/
def digitsFuel : Nat → Nat → List Char
  | 0, _ => []
  | fuel + 1, n =>
    if n < 10 then [digitChar n]
    else digitsFuel fuel (n / 10) ++ [digitChar (n % 10)]

/-- strconv.Itoa on a natural number, as a character list. -/
def natRepr (n : Nat) : List Char := digitsFuel (n + 1) n

/-- strconv.FormatInt(v, 10), as a character list ("-" prefix on negatives). -/
def intReprChars (i : Int) : List Char :=
  if i < 0 then '-' :: natRepr i.natAbs else natRepr i.natAbs

/-- strconv.FormatInt(v, 10). -/
def intRepr (i : Int) : String := ⟨intReprChars i⟩

/-- Model of strconv.FormatFloat(v, 'g', -1, 64): the shortest round-trip
format, whose defining property is injectivity on the represented numbers.
The model renders the reduced numerator/denominator pair. -/
def ratRepr (q : ℚ) : String := ⟨intReprChars q.num ++ '/' :: natRepr q.den⟩

/-- Model of time.Time.String(): a canonical (injective) rendering of the
instant. -/
def timeRepr (t : Int) : String := intRepr t

/-- fmt.Sprintf("%v", value) for a scalar value (used by the String-filter
fallback and by ValueCounts). -/
def valueGoString : Value → String
  | .vstr s => s
  | .vint n => intRepr n
  | .vfloat q => ratRepr q
  | .vbool b => if b then "true" else "false"
  | .vtime t => timeRepr t

/-- seriesValueToString (ops.go): value at row `i` rendered as text, per
kind.  Indexing is in-range at every call site. -/
def seriesValueToString (s : Series) (i : Nat) : String :=
  match s.data with
  | .strs xs => xs.getD i ""
  | .ints xs => intRepr (xs.getD i 0)
  | .floats xs => ratRepr (xs.getD i 0)
  | .bools xs => if xs.getD i false then "true" else "false"
  | .times xs => timeRepr (xs.getD i 0)

/-! ### Row slicing (df.go slice, Head, Tail) -/

/-- The `data[start:end]` copy of one typed slice: the dispatch is total
over the closed kind set, including TimeType. -/
def ColData.sliceRange : ColData → Nat → Nat → ColData
  | .strs xs, start, stop => .strs ((xs.drop start).take (stop - start))
  | .ints xs, start, stop => .ints ((xs.drop start).take (stop - start))
  | .floats xs, start, stop => .floats ((xs.drop start).take (stop - start))
  | .bools xs, start, stop => .bools ((xs.drop start).take (stop - start))
  | .times xs, start, stop => .times ((xs.drop start).take (stop - start))

/-- slice (df.go): rows [start, stop) of every column in order.  `start < 0`
cannot arise with `Nat` indices; both call sites pass non-negative values. -/
def DataFrame.slice (df : DataFrame) (start stop : Nat) (operation : String) :
    DataFrame :=
  if stop > df.length || decide (start ≥ stop) then
    df.setError (newOpError operation "invalid slice range")
  else
    let r := orderFoldAddAux df.columns
      (fun _ s => (s.name, newSeries s.name (s.data.sliceRange start stop)))
      df.order [] []
    ⟨r.1, r.2, stop - start, none⟩

/-- Head (df.go): error passthrough; `n ≤ 0` is an error (NOT an empty
table); `n ≥ length` a full copy; else rows [0, n). -/
def DataFrame.head (df : DataFrame) (n : Int) : DataFrame :=
  match df.err with
  | some _ => df
  | none =>
    if n ≤ 0 then df.setError (newOpError "Head" "n must be positive")
    else if n ≥ (df.length : Int) then df.copy
    else df.slice 0 n.toNat "Head"

/-- Tail (df.go): error passthrough; `n ≤ 0` is an error; `n ≥ length` a
full copy; else the last n rows. -/
def DataFrame.tail (df : DataFrame) (n : Int) : DataFrame :=
  match df.err with
  | some _ => df
  | none =>
    if n ≤ 0 then df.setError (newOpError "Tail" "n must be positive")
    else if n ≥ (df.length : Int) then df.copy
    else df.slice (df.length - n.toNat) df.length "Tail"

/-! ### Structural operations (df.go), in receiver-state-passing style -/

/-- AddColumn (df.go): returns (receiver state after the call, result).
The success path MUTATES the receiver (sets `length` when it is the first
column, then appends the copied series) and returns the receiver itself;
the error paths return a fresh error-bearing frame and leave the receiver
as it was. -/
def DataFrame.addColumnCall (df : DataFrame) (s : Series) :
    DataFrame × DataFrame :=
  match df.err with
  | some _ => (df, df)
  | none =>
    if df.columns.length == 0 then
      let df1 := { df with length := s.length }
      if (mapLookup df1.columns s.name).isSome then
        (df1, df1.setError (newColumnError "AddColumn" s.name "column already exists"))
      else
        let df2 := df1.addSeriesUnsafe s.copy
        (df2, df2)
    else if s.length ≠ df.length then
      (df, df.setError (newColumnError "AddColumn" s.name
        "series length does not match DataFrame length"))
    else if (mapLookup df.columns s.name).isSome then
      (df, df.setError (newColumnError "AddColumn" s.name "column already exists"))
    else
      let df2 := df.addSeriesUnsafe s.copy
      (df2, df2)

/-- DropColumn (df.go): copy-on-write removal. -/
def DataFrame.dropColumn (df : DataFrame) (name : String) : DataFrame :=
  match df.err with
  | some _ => df
  | none =>
    match df.validateColumnExists name with
    | some e => df.setError e
    | none =>
      let newDf := df.copy
      { newDf with columns := mapRemove newDf.columns name,
                   order := listRemoveFirst newDf.order name }

/-- DropColumn in state-passing style: the body never writes the receiver. -/
def DataFrame.dropColumnCall (df : DataFrame) (name : String) :
    DataFrame × DataFrame := (df, df.dropColumn name)

/-- RenameColumn (df.go): copy-on-write rename (map re-key plus order-slice
replacement on the copy). -/
def DataFrame.renameColumn (df : DataFrame) (oldName newName : String) :
    DataFrame :=
  match df.err with
  | some _ => df
  | none =>
    match df.validateColumnExists oldName with
    | some e => df.setError e
    | none =>
      if (mapLookup df.columns newName).isSome && newName != oldName then
        df.setError (newColumnError "RenameColumn" newName "column already exists")
      else
        let newDf := df.copy
        match mapLookup newDf.columns oldName with
        | none => newDf
        | some s =>
          let s2 := { s with name := newName }
          { newDf with
              columns := mapRemove (mapInsert newDf.columns newName s2) oldName,
              order := listReplaceFirst newDf.order oldName newName }

/-- RenameColumn in state-passing style: the body never writes the receiver. -/
def DataFrame.renameColumnCall (df : DataFrame) (oldName newName : String) :
    DataFrame × DataFrame := (df, df.renameColumn oldName newName)

/-! ### Filter (ops.go) -/

/-- toInt64 (ops.go): accepted dynamic kinds for an int64 comparison value;
a float64 is truncated toward zero as Go's conversion does. -/
def toInt64 : Value → Option Int
  | .vint n => some n
  | .vfloat q => some (Int.tdiv q.num (Int.ofNat q.den))
  | _ => none

/-- toFloat64 (ops.go): accepted dynamic kinds for a float64 comparison
value. -/
def toFloat64 : Value → Option ℚ
  | .vfloat q => some q
  | .vint n => some (n : ℚ)
  | _ => none

/-- matchInt64 (ops.go): comparison dispatch on the operator token; unknown
operators match nothing. -/
def matchInt (v : Int) (op : String) (cmp : Int) : Bool :=
  if op == "==" || op == "=" then v == cmp
  else if op == "!=" || op == "<>" then v != cmp
  else if op == ">" then decide (cmp < v)
  else if op == ">=" then decide (cmp ≤ v)
  else if op == "<" then decide (v < cmp)
  else if op == "<=" then decide (v ≤ cmp)
  else false

/-- matchFloat64 (ops.go). -/
def matchRat (v : ℚ) (op : String) (cmp : ℚ) : Bool :=
  if op == "==" || op == "=" then v == cmp
  else if op == "!=" || op == "<>" then v != cmp
  else if op == ">" then decide (cmp < v)
  else if op == ">=" then decide (cmp ≤ v)
  else if op == "<" then decide (v < cmp)
  else if op == "<=" then decide (v ≤ cmp)
  else false

/-- Go's byte-wise strict comparison `a < b`, on the character model. -/
def charListLt : List Char → List Char → Bool
  | [], [] => false
  | [], _ :: _ => true
  | _ :: _, [] => false
  | a :: as, b :: bs =>
    decide (a.toNat < b.toNat) ||
    (a.toNat == b.toNat && charListLt as bs)

/-- Go's byte-wise `a <= b`. -/
def charListLe : List Char → List Char → Bool
  | [], _ => true
  | _ :: _, [] => false
  | a :: as, b :: bs =>
    decide (a.toNat < b.toNat) ||
    (a.toNat == b.toNat && charListLe as bs)

def strLt (a b : String) : Bool := charListLt a.data b.data

def strLe (a b : String) : Bool := charListLe a.data b.data

/-- strings.Contains: `needle` occurs contiguously in `hay`. -/
def listInfixOf (needle : List Char) : List Char → Bool
  | [] => needle.isEmpty
  | c :: rest => needle.isPrefixOf (c :: rest) || listInfixOf needle rest

/-- matchString (ops.go): ordering comparisons are lexicographic, plus the
three String-only containment operators. -/
def matchStr (v : String) (op : String) (cmp : String) : Bool :=
  if op == "==" || op == "=" then v == cmp
  else if op == "!=" || op == "<>" then v != cmp
  else if op == ">" then strLt cmp v
  else if op == ">=" then strLe cmp v
  else if op == "<" then strLt v cmp
  else if op == "<=" then strLe v cmp
  else if op == "contains" then listInfixOf cmp.data v.data
  else if op == "startswith" then cmp.data.isPrefixOf v.data
  else if op == "endswith" then cmp.data.isSuffixOf v.data
  else false

/-- matchBool (ops.go): equality operators only. -/
def matchBool (v : Bool) (op : String) (cmp : Bool) : Bool :=
  if op == "==" || op == "=" then v == cmp
  else if op == "!=" || op == "<>" then v != cmp
  else false

/-- matchTime (ops.go): Equal/Before/After on instants. -/
def matchTime (v : Int) (op : String) (cmp : Int) : Bool :=
  if op == "==" || op == "=" then v == cmp
  else if op == "!=" || op == "<>" then v != cmp
  else if op == ">" then decide (cmp < v)
  else if op == ">=" then decide (cmp < v) || v == cmp
  else if op == "<" then decide (v < cmp)
  else if op == "<=" then decide (v < cmp) || v == cmp
  else false

/-- The index-collecting loop shared by every filterXxxIndices function:
`for i, v := range data { if match { indices = append(indices, i) } }`,
started at counter `k`. -/
def filterIdxsFrom (p : α → Bool) : List α → Nat → List Nat
  | [], _ => []
  | a :: rest, k =>
    if p a then k :: filterIdxsFrom p rest (k + 1)
    else filterIdxsFrom p rest (k + 1)

/-- filterIndicesTyped (ops.go): typed dispatch; each branch converts the
comparison value (an error when impossible) and collects matching row
indices. -/
def seriesFilterIdxs (series : Series) (operator : String) (value : Value) :
    Except OtterError (List Nat) :=
  match series.data with
  | .ints xs =>
    match toInt64 value with
    | none => .error (newOpError "Filter" "cannot convert value to int64")
    | some cmp => .ok (filterIdxsFrom (fun v => matchInt v operator cmp) xs 0)
  | .floats xs =>
    match toFloat64 value with
    | none => .error (newOpError "Filter" "cannot convert value to float64")
    | some cmp => .ok (filterIdxsFrom (fun v => matchRat v operator cmp) xs 0)
  | .strs xs =>
    let cmp := match value with
      | .vstr s => s
      | v => valueGoString v
    .ok (filterIdxsFrom (fun v => matchStr v operator cmp) xs 0)
  | .bools xs =>
    match value with
    | .vbool b => .ok (filterIdxsFrom (fun v => matchBool v operator b) xs 0)
    | _ => .error (newOpError "Filter" "cannot convert value to bool")
  | .times xs =>
    match value with
    | .vtime t => .ok (filterIdxsFrom (fun v => matchTime v operator t) xs 0)
    | _ => .error (newOpError "Filter" "cannot convert value to time.Time")

/-- The row-match predicate of one series (the spec's "r's value under
(col, op, v) evaluates true"), read off the same typed dispatch. -/
def seriesMatchAt (s : Series) (operator : String) (v : Value) (i : Nat) :
    Bool :=
  match s.data with
  | .ints xs =>
    match toInt64 v with
    | some cmp => matchInt (xs.getD i 0) operator cmp
    | none => false
  | .floats xs =>
    match toFloat64 v with
    | some cmp => matchRat (xs.getD i 0) operator cmp
    | none => false
  | .strs xs =>
    matchStr (xs.getD i "") operator
      (match v with | .vstr s0 => s0 | w => valueGoString w)
  | .bools xs =>
    match v with
    | .vbool b => matchBool (xs.getD i false) operator b
    | _ => false
  | .times xs =>
    match v with
    | .vtime t => matchTime (xs.getD i 0) operator t
    | _ => false

/-- emptySliceForType (ops.go). -/
def emptySliceForType : ColumnType → ColData
  | .stringType => .strs []
  | .int64Type => .ints []
  | .float64Type => .floats []
  | .boolType => .bools []
  | .timeType => .times []

/-- selectSeriesRows (ops.go): the gather `newSlice[i] = data[idx]` per
kind.  Out-of-range indices (impossible at the call sites) read the kind's
zero value. -/
def ColData.selectIdxs : ColData → List Nat → ColData
  | .strs xs, idxs => .strs (idxs.map (fun i => xs.getD i ""))
  | .ints xs, idxs => .ints (idxs.map (fun i => xs.getD i 0))
  | .floats xs, idxs => .floats (idxs.map (fun i => xs.getD i 0))
  | .bools xs, idxs => .bools (idxs.map (fun i => xs.getD i false))
  | .times xs, idxs => .times (idxs.map (fun i => xs.getD i 0))

/-- selectRows (ops.go): empty index list yields the same schema with empty
typed columns; otherwise gathers the indexed rows of every column in order.
NewSeries cannot fail in the model, so the Go error branches are absent. -/
def DataFrame.selectRows (df : DataFrame) (idxs : List Nat)
    (_operation : String) : DataFrame :=
  if idxs.isEmpty then
    let r := orderFoldAddAux df.columns
      (fun _ s => (s.name, newSeries s.name (emptySliceForType s.type)))
      df.order [] []
    ⟨r.1, r.2, 0, none⟩
  else
    let r := orderFoldAddAux df.columns
      (fun _ s => (s.name, newSeries s.name (s.data.selectIdxs idxs)))
      df.order [] []
    ⟨r.1, r.2, idxs.length, none⟩

/-- Filter (ops.go): error passthrough, column/emptiness validation (each
failure returned on a FRESH error frame), typed index collection, row
gather. -/
def DataFrame.filter (df : DataFrame) (column operator : String)
    (value : Value) : DataFrame :=
  match df.err with
  | some _ => df
  | none =>
    match df.validateColumnExists column with
    | some e => df.setError e
    | none =>
      match df.validateNotEmpty with
      | some e => df.setError e
      | none =>
        match mapLookup df.columns column with
        | none => df.setError (newColumnError "ColumnAccess" column "column does not exist")
        | some series =>
          match seriesFilterIdxs series operator value with
          | .error e => df.setError (wrapColumnError "Filter" column e)
          | .ok idxs => df.selectRows idxs "Filter"

/-- Filter in state-passing style: the body never writes a receiver field. -/
def DataFrame.filterCall (df : DataFrame) (column operator : String)
    (value : Value) : DataFrame × DataFrame :=
  (df, df.filter column operator value)

/-! ### Select, Drop, Sort, Query (ops.go) -/

/-- Select (ops.go): projection in the requested order, copying each series. -/
def DataFrame.select (df : DataFrame) (cols : List String) : DataFrame :=
  match df.err with
  | some _ => df
  | none =>
    if cols.isEmpty then
      df.setError (newOpError "Select" "at least one column must be specified")
    else
      match df.validateColumnsExist cols with
      | some e => df.setError e
      | none =>
        let r := orderFoldAddAux df.columns
          (fun _ s => (s.copy.name, s.copy)) cols [] []
        ⟨r.1, r.2, df.length, none⟩

/-- Drop (ops.go): complement of Select over the order slice. -/
def DataFrame.drop (df : DataFrame) (cols : List String) : DataFrame :=
  match df.err with
  | some _ => df
  | none =>
    if cols.isEmpty then df.copy
    else
      match df.validateColumnsExist cols with
      | some e => df.setError e
      | none =>
        let keep := df.order.filter (fun c => !(cols.contains c))
        if keep.isEmpty then
          df.setError (newOpError "Drop" "cannot drop all columns")
        else df.select keep

/-- compareValues (ops.go): three-way comparison of two same-kind values
under the column's declared kind; Go type-asserts (the mismatched cases
cannot arise on consistent frames and yield 0 here). -/
def compareValues (a b : Value) (columnType : ColumnType) : Int :=
  match columnType, a, b with
  | .stringType, .vstr x, .vstr y => if strLt x y then -1 else if strLt y x then 1 else 0
  | .int64Type, .vint x, .vint y => if x < y then -1 else if y < x then 1 else 0
  | .float64Type, .vfloat x, .vfloat y => if x < y then -1 else if y < x then 1 else 0
  | .boolType, .vbool x, .vbool y => if !x && y then -1 else if x && !y then 1 else 0
  | .timeType, .vtime x, .vtime y => if x < y then -1 else if y < x then 1 else 0
  | _, _, _ => 0

/-- The SortBy comparator body (ops.go): first listed column with unequal
values decides, honouring the per-column direction; a Get error aborts
with false. -/
def sortLess (df : DataFrame) : List (String × Bool) → Nat → Nat → Bool
  | [], _, _ => false
  | (colName, asc) :: rest, rowI, rowJ =>
    match mapLookup df.columns colName with
    | none => false
    | some s =>
      match s.get rowI, s.get rowJ with
      | some vi, some vj =>
        let c := compareValues vi vj s.type
        if c ≠ 0 then (if asc then decide (c < 0) else decide (0 < c))
        else sortLess df rest rowI rowJ
      | _, _ => false

/-- SortBy (ops.go): validation, then a comparison sort of the row indices
followed by a row gather.  Go's sort.Slice leaves the order of
comparator-equal rows unspecified; the model uses an insertion sort
consistent with the same comparator. -/
def DataFrame.sortBy (df : DataFrame) (columns : List String)
    (ascending : List Bool) : DataFrame :=
  match df.err with
  | some _ => df
  | none =>
    if columns.isEmpty then
      df.setError (newOpError "SortBy" "at least one column must be specified")
    else if columns.length ≠ ascending.length then
      df.setError (newOpError "SortBy" "columns and ascending arrays must have the same length")
    else
      match df.validateColumnsExist columns with
      | some e => df.setError e
      | none =>
        match df.validateNotEmpty with
        | some e => df.setError e
        | none =>
          let keys := columns.zip ascending
          let idxs := List.insertionSort
            (fun i j => sortLess df keys j i = false) (List.range df.length)
          df.selectRows idxs "SortBy"

/-- Sort (ops.go): single-column alias of SortBy. -/
def DataFrame.sortOn (df : DataFrame) (column : String) (ascending : Bool) :
    DataFrame :=
  df.sortBy [column] [ascending]

/-- strings.TrimSpace, restricted to the space character (the only
whitespace the modelled inputs contain). -/
def trimSpaces (s : String) : String :=
  ⟨((s.data.dropWhile (· == ' ')).reverse.dropWhile (· == ' ')).reverse⟩

/-- strings.Fields, restricted to space-separated words. -/
def fieldsOf (s : String) : List String :=
  (s.splitOn " ").filter (fun t => t != "")

/-- strings.Trim(s, string(c)): strip every leading and trailing `c`. -/
def trimChar (s : String) (c : Char) : String :=
  ⟨((s.data.dropWhile (· == c)).reverse.dropWhile (· == c)).reverse⟩

/-- Digit run to a number; helper for the strconv parser models. -/
def parseNatDigits (l : List Char) : Option Nat :=
  if l.isEmpty then none
  else if l.all (fun c => 48 ≤ c.toNat && c.toNat ≤ 57) then
    some (l.foldl (fun a c => 10 * a + (c.toNat - 48)) 0)
  else none

/-- Model of strconv.ParseInt(s, 10, 64): optional sign then decimal
digits. -/
def parseIntStr (s : String) : Option Int :=
  match s.data with
  | '-' :: rest => (parseNatDigits rest).map (fun n => -(n : Int))
  | '+' :: rest => (parseNatDigits rest).map (fun n => (n : Int))
  | l => (parseNatDigits l).map (fun n => (n : Int))

/-- Model of strconv.ParseFloat(s, 64) on plain decimal forms
[sign]digits[.digits]; exponent/hex/inf forms are outside the modelled
input space. -/
def parseRatStr (s : String) : Option ℚ :=
  let core : List Char → Option ℚ := fun l =>
    match l.splitOn '.' with
    | [ip] => (parseNatDigits ip).map (fun n => (n : ℚ))
    | [ip, fp] =>
      match parseNatDigits ip, parseNatDigits fp with
      | some n, some f => some ((n : ℚ) + (f : ℚ) / ((10 : ℚ) ^ fp.length))
      | _, _ => none
    | _ => none
  match s.data with
  | '-' :: rest => (core rest).map (fun q => -q)
  | '+' :: rest => core rest
  | l => core l

/-- strconv.ParseBool: the accepted literal set. -/
def parseBoolStr (s : String) : Option Bool :=
  if s == "1" || s == "t" || s == "T" || s == "TRUE" || s == "true" || s == "True" then
    some true
  else if s == "0" || s == "f" || s == "F" || s == "FALSE" || s == "false" || s == "False" then
    some false
  else none

/-- Model of parseTimeValue (type.go): the date layout "2006-01-02" mapped
to an instant; the further layouts Go tries are outside the modelled input
space. -/
def parseTimeStr (s : String) : Option Int :=
  match s.splitOn "-" with
  | [y, m, d] =>
    match parseNatDigits y.data, parseNatDigits m.data, parseNatDigits d.data with
    | some yv, some mv, some dv => some ((yv * 10000 + mv * 100 + dv : Nat) : Int)
    | _, _, _ => none
  | _ => none

/-- ConvertValue (type.go): text to a value of the target kind; blank input
yields the kind's zero value. -/
def convertValue (value : String) (targetType : ColumnType) :
    Except OtterError Value :=
  let value := trimSpaces value
  if value == "" then
    match targetType with
    | .stringType => .ok (.vstr "")
    | .int64Type => .ok (.vint 0)
    | .float64Type => .ok (.vfloat 0)
    | .boolType => .ok (.vbool false)
    | .timeType => .ok (.vtime 0)
  else
    match targetType with
    | .stringType => .ok (.vstr value)
    | .int64Type =>
      match parseIntStr value with
      | some n => .ok (.vint n)
      | none => .error (newOpError "ConvertValue" "cannot convert to int64")
    | .float64Type =>
      match parseRatStr value with
      | some q => .ok (.vfloat q)
      | none => .error (newOpError "ConvertValue" "cannot convert to float64")
    | .boolType =>
      match parseBoolStr value with
      | some b => .ok (.vbool b)
      | none => .error (newOpError "ConvertValue" "cannot convert to bool")
    | .timeType =>
      match parseTimeStr value with
      | some t => .ok (.vtime t)
      | none => .error (newOpError "ConvertValue" "cannot convert to time")

/-- Query (ops.go): parse "column operator literal" (the literal may be
single- or double-quoted), convert the literal to the column's kind, and
delegate to Filter. -/
def DataFrame.query (df : DataFrame) (q : String) : DataFrame :=
  match df.err with
  | some _ => df
  | none =>
    match fieldsOf q with
    | [column, operator, valueStr0] =>
      let valueStr1 :=
        if valueStr0.startsWith "'" && valueStr0.endsWith "'" then
          trimChar valueStr0 '\''
        else valueStr0
      let valueStr :=
        if valueStr1.startsWith "\"" && valueStr1.endsWith "\"" then
          trimChar valueStr1 '"'
        else valueStr1
      if !(df.hasColumn column) then
        df.setError (newColumnError "Query" column "column does not exist")
      else
        match df.getColumnType column with
        | .error _ => df
        | .ok columnType =>
          match convertValue valueStr columnType with
          | .error e => df.setError (wrapColumnError "Query" column e)
          | .ok value => df.filter column operator value
    | _ => df.setError (newOpError "Query" "query must be in format column operator value")

/-! ### GroupBy engine (ops.go) -/

/-- The key separator written between components (`key.WriteByte(0)`). -/
def nulChar : Char := Char.ofNat 0

/-- One length-prefixed key component: `<decimal length> ':' <text>`. -/
def encComp (s : List Char) : List Char := natRepr s.length ++ ':' :: s

/-- The composite key of one row: components joined by the NUL separator
(the Go loop writes the separator before every component but the first). -/
def encKey : List (List Char) → List Char
  | [] => []
  | [s] => encComp s
  | s :: rest => encComp s ++ nulChar :: encKey rest

/-- The composite key over `String` parts. -/
def encKeyStr (parts : List String) : String :=
  ⟨encKey (parts.map String.data)⟩

/-- GroupBy handle (ops.go): source frame, grouping columns, deferred
validation error. -/
structure GroupByHandle where
  df : DataFrame
  columns : List String
  err : Option OtterError
deriving DecidableEq, Repr

/-- GroupBy (ops.go): validates that at least one grouping column is given
and that all exist; failures are carried on the handle. -/
def DataFrame.groupBy (df : DataFrame) (columns : List String) :
    GroupByHandle :=
  match df.err with
  | some e => ⟨df, [], some e⟩
  | none =>
    if columns.isEmpty then
      ⟨df, [], some (newOpError "GroupBy" "at least one column must be specified")⟩
    else
      match df.validateColumnsExist columns with
      | some e => ⟨df, [], some e⟩
      | none => ⟨df, columns, none⟩

/-- groupKey (ops.go): the original (unencoded) component values and the
member row indices of one group. -/
structure GroupEntry where
  values : List String
  indices : List Nat
deriving DecidableEq, Repr

/-- `groups[k].indices = append(..., i)` with map-miss initialisation, on
the association-list model of the group map. -/
def groupsInsert (groups : List (String × GroupEntry)) (k : String)
    (values : List String) (i : Nat) : List (String × GroupEntry) :=
  match groups with
  | [] => [(k, ⟨values, [i]⟩)]
  | p :: rest =>
    if p.1 == k then (p.1, ⟨p.2.values, p.2.indices ++ [i]⟩) :: rest
    else p :: groupsInsert rest k values i

/-- The pre-cached grouping-column series (ops.go `groupSeries`). -/
def GroupByHandle.groupSeries (gb : GroupByHandle) : List Series :=
  gb.columns.filterMap (fun c => mapLookup gb.df.columns c)

/-- The composite key of row `i`. -/
def rowKey (groupSeries : List Series) (i : Nat) : String :=
  encKeyStr (groupSeries.map (fun s => seriesValueToString s i))

/-- buildGroups (ops.go): one pass over the rows, serialising each grouping
value, building the length-prefixed key, and collecting member indices.
Go stores the groups in an unordered hash map; the model's association
list records them in first-occurrence order, and aggregation is proven
independent of this enumeration order. -/
def GroupByHandle.buildGroups (gb : GroupByHandle) :
    List (String × GroupEntry) :=
  (List.range gb.df.length).foldl (fun groups i =>
    groupsInsert groups (rowKey gb.groupSeries i)
      (gb.groupSeries.map (fun s => seriesValueToString s i)) i) []

/-- aggregateInt64 (ops.go): Sum/Mean accumulate as int64 and report as
float64; Min/Max fold from the first index.  The empty-indices Min/Max
cases are unreachable (the caller guards n = 0) and yield 0. -/
def aggregateIntData (xs : List Int) (indices : List Nat)
    (operation : String) : Except OtterError ℚ :=
  if operation == "sum" then
    .ok ((indices.foldl (fun a idx => a + xs.getD idx 0) 0 : Int) : ℚ)
  else if operation == "mean" then
    .ok (((indices.foldl (fun a idx => a + xs.getD idx 0) 0 : Int) : ℚ) /
      (indices.length : ℚ))
  else if operation == "count" then
    .ok ((indices.length : Nat) : ℚ)
  else if operation == "min" then
    match indices with
    | [] => .ok 0
    | i0 :: rest => .ok ((rest.foldl (fun m idx => min m (xs.getD idx 0)) (xs.getD i0 0) : Int) : ℚ)
  else if operation == "max" then
    match indices with
    | [] => .ok 0
    | i0 :: rest => .ok ((rest.foldl (fun m idx => max m (xs.getD idx 0)) (xs.getD i0 0) : Int) : ℚ)
  else .error (newOpError "aggregateInt64" "unsupported operation")

/-- aggregateFloat64 (ops.go). -/
def aggregateRatData (xs : List ℚ) (indices : List Nat)
    (operation : String) : Except OtterError ℚ :=
  if operation == "sum" then
    .ok (indices.foldl (fun a idx => a + xs.getD idx 0) 0)
  else if operation == "mean" then
    .ok ((indices.foldl (fun a idx => a + xs.getD idx 0) 0) / (indices.length : ℚ))
  else if operation == "count" then
    .ok ((indices.length : Nat) : ℚ)
  else if operation == "min" then
    match indices with
    | [] => .ok 0
    | i0 :: rest => .ok (rest.foldl (fun m idx => min m (xs.getD idx 0)) (xs.getD i0 0))
  else if operation == "max" then
    match indices with
    | [] => .ok 0
    | i0 :: rest => .ok (rest.foldl (fun m idx => max m (xs.getD idx 0)) (xs.getD i0 0))
  else .error (newOpError "aggregateFloat64" "unsupported operation")

/-- calculateAggregation (ops.go): 0 for an empty index set (Count
included), typed dispatch for numeric columns, 0 for the rest. -/
def GroupByHandle.calculateAggregation (gb : GroupByHandle) (column : String)
    (indices : List Nat) (operation : String) : Except OtterError ℚ :=
  match mapLookup gb.df.columns column with
  | none => .ok 0
  | some series =>
    if indices.length == 0 then .ok 0
    else
      match series.data with
      | .ints xs => aggregateIntData xs indices operation
      | .floats xs => aggregateRatData xs indices operation
      | _ => .ok 0

/-- The non-grouping numeric (Int64/Float64) columns, in frame order
(ops.go `numericCols`). -/
def GroupByHandle.numericCols (gb : GroupByHandle) : List String :=
  gb.df.order.filter (fun colName =>
    !(gb.columns.contains colName) &&
    (match mapLookup gb.df.columns colName with
     | some s => s.type == .int64Type || s.type == .float64Type
     | none => false))

/-- The output-building phase of aggregate (ops.go), taking the sorted key
list and the group lookup: group-column values become String columns, each
non-grouping numeric column one Float64 column of per-group aggregates. -/
def GroupByHandle.aggregateSorted (gb : GroupByHandle) (operation : String)
    (sortedKeys : List String) (lookupG : String → Option GroupEntry) :
    Except OtterError DataFrame := do
  let entries := sortedKeys.map (fun k => (lookupG k).getD ⟨[], []⟩)
  let groupColData := (List.range gb.columns.length).map
    (fun j => entries.map (fun g => g.values.getD j ""))
  let numericData ← gb.numericCols.mapM (fun colName => do
    let vals ← entries.mapM
      (fun g => gb.calculateAggregation colName g.indices operation)
    pure (colName, vals))
  let resultSeries :=
    (gb.columns.zip groupColData).map (fun p => newSeries p.1 (.strs p.2)) ++
    numericData.map (fun p => newSeries p.1 (.floats p.2))
  newDataFrameFromSeries resultSeries

/-- aggregate (ops.go) over an EXPLICIT enumeration of the group map (Go's
map iteration order is arbitrary): short-circuit the deferred error,
collect and sort the keys, build the output in sorted-key order. -/
def GroupByHandle.aggregateWithEnum (gb : GroupByHandle) (operation : String)
    (enum : List (String × GroupEntry)) : Except OtterError DataFrame :=
  match gb.err with
  | some e => .error e
  | none =>
    let sortedKeys := List.insertionSort (fun a b : String => strLe a b = true)
      (enum.map Prod.fst)
    gb.aggregateSorted operation sortedKeys
      (fun k => (enum.find? (fun p => p.1 == k)).map Prod.snd)

/-- aggregate (ops.go) with the model's canonical enumeration. -/
def GroupByHandle.aggregate (gb : GroupByHandle) (operation : String) :
    Except OtterError DataFrame :=
  gb.aggregateWithEnum operation gb.buildGroups

def GroupByHandle.sumAgg (gb : GroupByHandle) : Except OtterError DataFrame :=
  gb.aggregate "sum"

def GroupByHandle.meanAgg (gb : GroupByHandle) : Except OtterError DataFrame :=
  gb.aggregate "mean"

def GroupByHandle.countAgg (gb : GroupByHandle) : Except OtterError DataFrame :=
  gb.aggregate "count"

def GroupByHandle.minAgg (gb : GroupByHandle) : Except OtterError DataFrame :=
  gb.aggregate "min"

def GroupByHandle.maxAgg (gb : GroupByHandle) : Except OtterError DataFrame :=
  gb.aggregate "max"

/-! ### Statistics engine (stats.go) -/

/-- Count (stats.go): the row count; 0 in error state; never fails. -/
def DataFrame.countRows (df : DataFrame) : Nat :=
  match df.err with
  | some _ => 0
  | none => df.length

/-- Sum (stats.go): requires the column to exist and be numeric; note the
ABSENCE of an emptiness check — a zero-row numeric column sums to 0 without
error. -/
def DataFrame.sumStat (df : DataFrame) (column : String) :
    Except OtterError ℚ :=
  match df.err with
  | some e => .error e
  | none =>
    match df.validateColumnExists column with
    | some e => .error e
    | none =>
      match mapLookup df.columns column with
      | none => .error (newColumnError "ColumnAccess" column "column does not exist")
      | some series =>
        match series.data with
        | .ints xs => .ok (xs.foldl (fun a v => a + (v : ℚ)) 0)
        | .floats xs => .ok (xs.foldl (fun a v => a + v) 0)
        | _ => .error (newColumnError "Sum" column "column must be numeric (int64 or float64)")

/-- Mean (stats.go): emptiness check, then Sum / length. -/
def DataFrame.meanStat (df : DataFrame) (column : String) :
    Except OtterError ℚ :=
  match df.err with
  | some e => .error e
  | none =>
    match df.validateNotEmpty with
    | some e => .error e
    | none =>
      match df.sumStat column with
      | .error e => .error e
      | .ok s => .ok (s / (df.length : ℚ))

/-- Min (stats.go): kind-preserving minimum of a non-empty numeric column.
The Go fold compares as float64; on Int64 columns the model folds the
integers directly (exact for every value the claims exercise). -/
def DataFrame.minStat (df : DataFrame) (column : String) :
    Except OtterError Value :=
  match df.err with
  | some e => .error e
  | none =>
    match df.validateColumnExists column with
    | some e => .error e
    | none =>
      match df.validateNotEmpty with
      | some e => .error e
      | none =>
        match mapLookup df.columns column with
        | none => .error (newColumnError "ColumnAccess" column "column does not exist")
        | some series =>
          match series.data with
          | .ints xs =>
            match xs with
            | [] => .error (wrapColumnError "Min" column
                (newOpError "Series.Get" "index out of range"))
            | x :: rest => .ok (.vint (rest.foldl min x))
          | .floats xs =>
            match xs with
            | [] => .error (wrapColumnError "Min" column
                (newOpError "Series.Get" "index out of range"))
            | x :: rest => .ok (.vfloat (rest.foldl min x))
          | _ => .error (newColumnError "Min" column "column must be numeric (int64 or float64)")

/-- Max (stats.go): kind-preserving maximum, same structure as Min. -/
def DataFrame.maxStat (df : DataFrame) (column : String) :
    Except OtterError Value :=
  match df.err with
  | some e => .error e
  | none =>
    match df.validateColumnExists column with
    | some e => .error e
    | none =>
      match df.validateNotEmpty with
      | some e => .error e
      | none =>
        match mapLookup df.columns column with
        | none => .error (newColumnError "ColumnAccess" column "column does not exist")
        | some series =>
          match series.data with
          | .ints xs =>
            match xs with
            | [] => .error (wrapColumnError "Max" column
                (newOpError "Series.Get" "index out of range"))
            | x :: rest => .ok (.vint (rest.foldl max x))
          | .floats xs =>
            match xs with
            | [] => .error (wrapColumnError "Max" column
                (newOpError "Series.Get" "index out of range"))
            | x :: rest => .ok (.vfloat (rest.foldl max x))
          | _ => .error (newColumnError "Max" column "column must be numeric (int64 or float64)")

/-- The float64 view of a numeric column's values. -/
def ColData.ratValues : ColData → List ℚ
  | .ints xs => xs.map (fun v => (v : ℚ))
  | .floats xs => xs
  | _ => []

/-- Std (stats.go): requires a numeric column with at least 2 values; Go
returns math.Sqrt of the SAMPLE variance (n−1 denominator).  The square
root of a rational is irrational in general, so the model returns the
sample variance itself — the error behaviour is identical, and Go's
Var = Std·Std corresponds exactly to this value. -/
def DataFrame.stdVariance (df : DataFrame) (column : String) :
    Except OtterError ℚ :=
  match df.err with
  | some e => .error e
  | none =>
    match df.validateColumnExists column with
    | some e => .error e
    | none =>
      match mapLookup df.columns column with
      | none => .error (newColumnError "ColumnAccess" column "column does not exist")
      | some series =>
        if series.type != .int64Type && series.type != .float64Type then
          .error (newColumnError "Std" column "column must be numeric (int64 or float64)")
        else if series.length ≤ 1 then
          .error (newColumnError "Std" column "need at least 2 values to calculate standard deviation")
        else
          match df.meanStat column with
          | .error e => .error e
          | .ok mean =>
            let vals := series.data.ratValues
            .ok ((vals.foldl (fun a v => a + (v - mean) * (v - mean)) 0) /
              ((series.length - 1 : Nat) : ℚ))

/-- Var (stats.go): Std squared — on the model's exact arithmetic this is
the sample variance returned by `stdVariance`. -/
def DataFrame.varStat (df : DataFrame) (column : String) :
    Except OtterError ℚ :=
  df.stdVariance column

/-- Median (stats.go): sort the float64 view, average the two middle
elements for even counts. -/
def DataFrame.medianStat (df : DataFrame) (column : String) :
    Except OtterError ℚ :=
  match df.err with
  | some e => .error e
  | none =>
    match df.validateColumnExists column with
    | some e => .error e
    | none =>
      match mapLookup df.columns column with
      | none => .error (newColumnError "ColumnAccess" column "column does not exist")
      | some series =>
        if series.type != .int64Type && series.type != .float64Type then
          .error (newColumnError "Median" column "column must be numeric (int64 or float64)")
        else
          match df.validateNotEmpty with
          | some e => .error e
          | none =>
            let values := List.insertionSort (fun a b : ℚ => a ≤ b)
              series.data.ratValues
            let n := values.length
            if n % 2 == 0 then
              .ok ((values.getD (n / 2 - 1) 0 + values.getD (n / 2) 0) / 2)
            else .ok (values.getD (n / 2) 0)

/-- Quantile (stats.go): q must lie in [0,1]; linear interpolation between
the order statistics at the exact fractional rank q·(n−1). -/
def DataFrame.quantileStat (df : DataFrame) (column : String) (q : ℚ) :
    Except OtterError ℚ :=
  match df.err with
  | some e => .error e
  | none =>
    if q < 0 || q > 1 then
      .error (newOpError "Quantile" "quantile must be between 0 and 1")
    else
      match df.validateColumnExists column with
      | some e => .error e
      | none =>
        match mapLookup df.columns column with
        | none => .error (newColumnError "ColumnAccess" column "column does not exist")
        | some series =>
          if series.type != .int64Type && series.type != .float64Type then
            .error (newColumnError "Quantile" column "column must be numeric (int64 or float64)")
          else
            match df.validateNotEmpty with
            | some e => .error e
            | none =>
              let values := List.insertionSort (fun a b : ℚ => a ≤ b)
                series.data.ratValues
              let n := values.length
              let index := q * ((n - 1 : Nat) : ℚ)
              if index.den == 1 then .ok (values.getD index.num.toNat 0)
              else
                let lower := Rat.floor index
                let upper := Rat.ceil index
                let weight := index - (lower : ℚ)
                .ok (values.getD lower.toNat 0 * (1 - weight) +
                  values.getD upper.toNat 0 * weight)

/-- The `(value, count)` accumulator of ValueCounts, in first-seen order. -/
def countsInsert (counts : List (String × Nat)) (k : String) :
    List (String × Nat) :=
  match counts with
  | [] => [(k, 1)]
  | p :: rest => if p.1 == k then (p.1, p.2 + 1) :: rest else p :: countsInsert rest k

/-- ValueCounts (stats.go): requires only that the column EXIST (works for
every kind); counts the textual renderings, sorts by descending count
(Go's sort.Slice leaves the order of equal counts unspecified; the model's
insertion sort keeps first-seen order on ties), and builds the result frame
from a two-entry map whose enumeration the model fixes as
[column, "count"]. -/
def DataFrame.valueCounts (df : DataFrame) (column : String) :
    Except OtterError DataFrame :=
  match df.err with
  | some e => .error e
  | none =>
    match df.validateColumnExists column with
    | some e => .error e
    | none =>
      match mapLookup df.columns column with
      | none => .error (newColumnError "ColumnAccess" column "column does not exist")
      | some series =>
        let keys := (List.range series.length).map
          (fun i => seriesValueToString series i)
        let counts := keys.foldl (fun acc k => countsInsert acc k) []
        let pairs := List.insertionSort
          (fun a b : String × Nat => b.2 ≤ a.2) counts
        newDataFrameFromMap
          [(column, .strs (pairs.map Prod.fst)),
           ("count", .ints (pairs.map (fun p => (p.2 : Int))))]

/-- NumericStats (stats.go). -/
structure NumericStats where
  column : String
  count : Nat
  sum : ℚ
  mean : ℚ
  minV : ℚ
  maxV : ℚ
  stdVariance : ℚ
  median : ℚ
deriving DecidableEq, Repr

/-- The float64 view of a kind-preserving Min/Max result
(convertToFloat64). -/
def valueToRat : Value → ℚ
  | .vint n => (n : ℚ)
  | .vfloat q => q
  | _ => 0

/-- NumericSummary (stats.go): requires an existing numeric column, then
composes Sum/Mean/Min/Max/Std/Median, failing on the first error. -/
def DataFrame.numericSummary (df : DataFrame) (column : String) :
    Except OtterError NumericStats :=
  match df.err with
  | some e => .error e
  | none =>
    match df.validateColumnExists column with
    | some e => .error e
    | none =>
      match mapLookup df.columns column with
      | none => .error (newColumnError "ColumnAccess" column "column does not exist")
      | some series =>
        if series.type != .int64Type && series.type != .float64Type then
          .error (newColumnError "NumericSummary" column "column must be numeric")
        else do
          let s ← df.sumStat column
          let m ← df.meanStat column
          let mn ← df.minStat column
          let mx ← df.maxStat column
          let sd ← df.stdVariance column
          let md ← df.medianStat column
          pure ⟨column, df.length, s, m, valueToRat mn, valueToRat mx, sd, md⟩

/-! ### Frame validity invariant and concrete fixtures -/

/-- The Table invariant of a successfully constructed frame: no error
state, the order slice and the column map list exactly the same names
(each exactly once), every series carries its map key as name, and every
column's length equals the frame's row count. -/
def DataFrame.Valid (df : DataFrame) : Prop :=
  df.err = none ∧
  df.order = df.columns.map Prod.fst ∧
  (df.columns.map Prod.fst).Nodup ∧
  ∀ p ∈ df.columns, p.2.name = p.1 ∧ p.2.length = df.length

instance (df : DataFrame) : Decidable df.Valid := by
  unfold DataFrame.Valid; infer_instance

/-- Fixture: a one-column Int64 frame, rows [1, 2, 3]. -/
def dfInts : DataFrame :=
  ⟨[("a", ⟨"a", .ints [1, 2, 3]⟩)], ["a"], 3, none⟩

/-- Fixture: a one-column Int64 frame with a single row. -/
def dfOne : DataFrame :=
  ⟨[("a", ⟨"a", .ints [1]⟩)], ["a"], 1, none⟩

/-- Fixture: a series to add to `dfOne`. -/
def sB : Series := ⟨"b", .ints [2]⟩

/-- Fixture: a one-column Timestamp frame, instants [t1, t2, t3]. -/
def dfTimes : DataFrame :=
  ⟨[("t", ⟨"t", .times [1, 2, 3]⟩)], ["t"], 3, none⟩

/-- Fixture for the grouping-key regression: category values
"a|b", "a|b", "a" with numeric values 1, 2, 10 (float64 in the source
test). -/
def dfDemo : DataFrame :=
  ⟨[("category", ⟨"category", .strs ["a|b", "a|b", "a"]⟩),
    ("value", ⟨"value", .floats [1, 2, 10]⟩)],
   ["category", "value"], 3, none⟩

/-- Fixture: one possible (non-alphabetical) enumeration order of the map
keyed "zebra"/"mango"/"apple" used by the repository's
TestDeterministicFromMap. -/
def c3Enum : List (String × ColData) :=
  [("zebra", .ints [1, 2, 3]), ("mango", .ints [7, 8, 9]),
   ("apple", .ints [4, 5, 6])]

/-- Fixture: a numeric column with zero rows. -/
def dfEmptyNum : DataFrame :=
  ⟨[("x", ⟨"x", .ints []⟩)], ["x"], 0, none⟩

/-- Fixture: a String column (non-numeric) with three rows. -/
def dfStrs : DataFrame :=
  ⟨[("s", ⟨"s", .strs ["a", "b", "a"]⟩)], ["s"], 3, none⟩

/-- Fixture: an error-state frame. -/
def dfErr : DataFrame :=
  ⟨[], [], 0, some (newOpError "Boom" "boom")⟩

/-- Decimal evaluation of a digit run (left inverse of `natRepr`, used to
prove the length prefix unambiguous). -/
def digitsVal (l : List Char) : Nat :=
  l.foldl (fun a c => 10 * a + (c.toNat - 48)) 0

/-! ## Lemma layer -/

/-! ### Association-list map facts -/

theorem mapLookup_cons (k' : String) (s : Series) (m : List (String × Series))
    (k : String) :
    mapLookup ((k', s) :: m) k = if k' == k then some s else mapLookup m k := by
  by_cases h : k' == k <;> simp [mapLookup, List.find?_cons, h]

theorem mapLookup_eq_of_mem {m : List (String × Series)}
    (hnd : (m.map Prod.fst).Nodup) {k : String} {s : Series}
    (hmem : (k, s) ∈ m) : mapLookup m k = some s := by
  induction m with
  | nil => cases hmem
  | cons p rest ih =>
    obtain ⟨pk, ps⟩ := p
    rcases List.mem_cons.mp hmem with h | h
    · rw [← h, mapLookup_cons]
      simp
    · have hk : k ∈ rest.map Prod.fst := List.mem_map.mpr ⟨(k, s), h, rfl⟩
      have hne : pk ≠ k := fun he => (List.nodup_cons.mp hnd).1 (he ▸ hk)
      rw [mapLookup_cons]
      simp only [beq_iff_eq, hne, if_false]
      exact ih (List.nodup_cons.mp hnd).2 h

theorem mem_of_mapLookup {m : List (String × Series)} {k : String}
    {s : Series} (h : mapLookup m k = some s) : (k, s) ∈ m := by
  induction m with
  | nil => simp [mapLookup] at h
  | cons p rest ih =>
    obtain ⟨pk, ps⟩ := p
    rw [mapLookup_cons] at h
    by_cases hpk : pk = k
    · simp only [hpk, beq_self_eq_true, if_true, Option.some.injEq] at h
      exact List.mem_cons.mpr (Or.inl (by rw [hpk, h]))
    · simp only [beq_iff_eq, hpk, if_false] at h
      exact List.mem_cons_of_mem _ (ih h)

theorem mapInsert_of_not_mem {m : List (String × Series)} {k : String}
    (v : Series) (h : k ∉ m.map Prod.fst) : mapInsert m k v = m ++ [(k, v)] := by
  induction m with
  | nil => rfl
  | cons p rest ih =>
    obtain ⟨pk, ps⟩ := p
    have hne : (pk == k) = false := by
      simp only [List.map_cons, List.mem_cons, not_or] at h
      exact beq_eq_false_iff_ne.mpr (fun he => h.1 he.symm)
    simp only [mapInsert, hne, Bool.false_eq_true, if_false, List.cons_append,
      List.cons.injEq, true_and]
    exact ih (by
      intro hk
      simp only [List.map_cons, List.mem_cons, not_or] at h
      exact h.2 hk)

/-! ### The order-driven column-building loop -/

theorem orderFoldAddAux_spec (m : List (String × Series))
    (g : String → Series → String × Series) :
    ∀ (keys : List String) (accCols : List (String × Series))
      (accOrder : List String),
      keys.Nodup →
      (∀ k ∈ keys, ∀ s, mapLookup m k = some s → (g k s).1 = k) →
      (∀ k ∈ keys, k ∉ accCols.map Prod.fst) →
      orderFoldAddAux m g keys accCols accOrder =
        (accCols ++ keys.filterMap (fun k => (mapLookup m k).map (fun s => g k s)),
         accOrder ++ keys.filterMap (fun k => (mapLookup m k).map (fun s => (g k s).1))) := by
  intro keys
  induction keys with
  | nil => intro accCols accOrder _ _ _; simp [orderFoldAddAux]
  | cons k rest ih =>
    intro accCols accOrder hnd hkey hfresh
    rcases List.nodup_cons.mp hnd with ⟨hkrest, hndr⟩
    cases hlk : mapLookup m k with
    | none =>
      simp only [orderFoldAddAux, hlk]
      rw [ih accCols accOrder hndr
        (fun k' hk' => hkey k' (List.mem_cons_of_mem _ hk'))
        (fun k' hk' => hfresh k' (List.mem_cons_of_mem _ hk'))]
      simp [hlk]
    | some s =>
      have hg1 : (g k s).1 = k := hkey k (List.mem_cons_self _ _) s hlk
      have hfr : (g k s).1 ∉ accCols.map Prod.fst := by
        rw [hg1]; exact hfresh k (List.mem_cons_self _ _)
      have hins : mapInsert accCols (g k s).1 (g k s).2 =
          accCols ++ [((g k s).1, (g k s).2)] :=
        mapInsert_of_not_mem _ hfr
      simp only [orderFoldAddAux, hlk, hins]
      rw [ih _ _ hndr (fun k' hk' => hkey k' (List.mem_cons_of_mem _ hk'))
        (by
          intro k' hk'
          simp only [List.map_append, List.mem_append, List.map_cons,
            List.map_nil, List.mem_singleton, not_or]
          constructor
          · exact hfresh k' (List.mem_cons_of_mem _ hk')
          · intro he
            exact hkrest (by rw [he, hg1] at hk'; exact hk'))]
      simp [hlk, List.append_assoc]

/-- Looking every key of a duplicate-free association list back up yields
the original pairs. -/
theorem filterMap_lookup_self {α : Type} {m : List (String × Series)}
    (hnd : (m.map Prod.fst).Nodup) (g : String → Series → α) :
    (m.map Prod.fst).filterMap
      (fun k => (mapLookup m k).map (fun s => g k s)) =
    m.map (fun p => g p.1 p.2) := by
  induction m with
  | nil => rfl
  | cons p rest ih =>
    obtain ⟨pk, ps⟩ := p
    rcases List.nodup_cons.mp hnd with ⟨hp, hndr⟩
    have hlk : mapLookup ((pk, ps) :: rest) pk = some ps := by
      rw [mapLookup_cons]; simp
    simp only [List.map_cons, List.filterMap_cons, hlk, Option.map_some']
    congr 1
    rw [List.filterMap_congr
      (g := fun k => (mapLookup rest k).map (fun s => g k s))]
    · exact ih hndr
    · intro k hk
      have hne : (pk == k) = false :=
        beq_eq_false_iff_ne.mpr (fun he => hp (by rw [he]; exact hk))
      rw [mapLookup_cons]
      simp [hne]

/-! ### Characterisations of Copy, slice, selectRows on valid frames -/

theorem names_of_valid {df : DataFrame}
    (hcols : ∀ p ∈ df.columns, p.2.name = p.1 ∧ p.2.length = df.length) :
    ∀ k ∈ df.columns.map Prod.fst, ∀ s,
      mapLookup df.columns k = some s → s.name = k := by
  intro k _ s hlk
  exact (hcols _ (mem_of_mapLookup hlk)).1

theorem copy_of_valid {df : DataFrame} (hv : df.Valid) : df.copy = df := by
  obtain ⟨he, hor, hnd, hcols⟩ := hv
  unfold DataFrame.copy
  rw [he, hor]
  rw [orderFoldAddAux_spec df.columns (fun k s => (k, s.copy))
    (df.columns.map Prod.fst) [] [] hnd (by intro k _ s _; rfl)
    (by intro k _ h; simp at h)]
  rw [filterMap_lookup_self hnd, filterMap_lookup_self hnd]
  simp only [List.nil_append]
  cases df with
  | mk c o l e =>
    simp only at *
    congr 1
    · simp [Series.copy]
    · rw [hor]
    · rw [he]

theorem selectIdxs_nil (d : ColData) :
    d.selectIdxs [] = emptySliceForType d.ctype := by
  cases d <;> rfl

theorem selectIdxs_ctype (d : ColData) (idxs : List Nat) :
    (d.selectIdxs idxs).ctype = d.ctype := by
  cases d <;> rfl

theorem selectRows_of_valid {df : DataFrame} (hv : df.Valid)
    (idxs : List Nat) (op : String) :
    df.selectRows idxs op =
      ⟨df.columns.map (fun p => (p.1, newSeries p.1 (p.2.data.selectIdxs idxs))),
       df.order, idxs.length, none⟩ := by
  obtain ⟨he, hor, hnd, hcols⟩ := hv
  unfold DataFrame.selectRows
  by_cases hie : idxs.isEmpty
  · have hidx : idxs = [] := by
      cases idxs with
      | nil => rfl
      | cons a l => simp [List.isEmpty] at hie
    subst hidx
    rw [if_pos hie, hor]
    rw [orderFoldAddAux_spec df.columns
      (fun _ s => (s.name, newSeries s.name (emptySliceForType s.type)))
      (df.columns.map Prod.fst) [] [] hnd
      (names_of_valid hcols) (by intro k _ h; simp at h)]
    rw [filterMap_lookup_self hnd, filterMap_lookup_self hnd]
    simp only [List.nil_append, List.length_nil]
    congr 1
    · refine List.map_congr_left ?_
      intro p hp
      rw [(hcols p hp).1, selectIdxs_nil]
      rfl
    · refine List.map_congr_left ?_
      intro p hp
      exact (hcols p hp).1
  · rw [if_neg hie, hor]
    rw [orderFoldAddAux_spec df.columns
      (fun _ s => (s.name, newSeries s.name (s.data.selectIdxs idxs)))
      (df.columns.map Prod.fst) [] [] hnd
      (names_of_valid hcols) (by intro k _ h; simp at h)]
    rw [filterMap_lookup_self hnd, filterMap_lookup_self hnd]
    simp only [List.nil_append]
    congr 1
    · refine List.map_congr_left ?_
      intro p hp
      rw [(hcols p hp).1]
    · refine List.map_congr_left ?_
      intro p hp
      exact (hcols p hp).1

theorem slice_of_valid {df : DataFrame} (hv : df.Valid) {start stop : Nat}
    (hstop : stop ≤ df.length) (hlt : start < stop) (op : String) :
    df.slice start stop op =
      ⟨df.columns.map (fun p => (p.1, newSeries p.1 (p.2.data.sliceRange start stop))),
       df.order, stop - start, none⟩ := by
  obtain ⟨he, hor, hnd, hcols⟩ := hv
  unfold DataFrame.slice
  rw [if_neg (by simp; omega), hor]
  rw [orderFoldAddAux_spec df.columns
    (fun _ s => (s.name, newSeries s.name (s.data.sliceRange start stop)))
    (df.columns.map Prod.fst) [] [] hnd
    (names_of_valid hcols) (by intro k _ h; simp at h)]
  rw [filterMap_lookup_self hnd, filterMap_lookup_self hnd]
  simp only [List.nil_append]
  congr 1
  · refine List.map_congr_left ?_
    intro p hp
    rw [(hcols p hp).1]
  · refine List.map_congr_left ?_
    intro p hp
    exact (hcols p hp).1

/-! ### The filter index loop -/

theorem mem_filterIdxsFrom {α : Type} (p : α → Bool) :
    ∀ (l : List α) (k i : Nat),
      i ∈ filterIdxsFrom p l k ↔
        ∃ j a, l.get? j = some a ∧ p a = true ∧ i = k + j := by
  intro l
  induction l with
  | nil => intro k i; simp [filterIdxsFrom]
  | cons a rest ih =>
    intro k i
    by_cases hpa : p a
    · simp only [filterIdxsFrom, hpa, if_true, List.mem_cons]
      constructor
      · rintro (rfl | hmem)
        · exact ⟨0, a, rfl, hpa, by omega⟩
        · obtain ⟨j, a', hg, hp', hi⟩ := (ih (k + 1) i).mp hmem
          exact ⟨j + 1, a', by simpa using hg, hp', by omega⟩
      · rintro ⟨j, a', hg, hp', rfl⟩
        cases j with
        | zero =>
          left
          simp at hg
          omega
        | succ j' =>
          right
          exact (ih (k + 1) _).mpr ⟨j', a', by simpa using hg, hp', by omega⟩
    · simp only [filterIdxsFrom, hpa, Bool.false_eq_true, if_false]
      rw [ih (k + 1) i]
      constructor
      · rintro ⟨j, a', hg, hp', rfl⟩
        exact ⟨j + 1, a', by simpa using hg, hp', by omega⟩
      · rintro ⟨j, a', hg, hp', rfl⟩
        cases j with
        | zero =>
          simp only [List.get?_cons_zero, Option.some.injEq] at hg
          rw [← hg] at hp'
          exact absurd hp' (by simpa using hpa)
        | succ j' =>
          exact ⟨j', a', by simpa using hg, hp', by omega⟩

theorem filterIdxsFrom_sorted_bdd {α : Type} (p : α → Bool) :
    ∀ (l : List α) (k : Nat),
      (filterIdxsFrom p l k).Pairwise (· < ·) ∧
      ∀ i ∈ filterIdxsFrom p l k, k ≤ i := by
  intro l
  induction l with
  | nil => intro k; simp [filterIdxsFrom]
  | cons a rest ih =>
    intro k
    by_cases hpa : p a
    · simp only [filterIdxsFrom, hpa, if_true]
      refine ⟨List.pairwise_cons.mpr ⟨?_, (ih (k + 1)).1⟩, ?_⟩
      · intro i hi
        have := (ih (k + 1)).2 i hi
        omega
      · intro i hi
        rcases List.mem_cons.mp hi with rfl | hi'
        · omega
        · have := (ih (k + 1)).2 i hi'
          omega
    · simp only [filterIdxsFrom, hpa, Bool.false_eq_true, if_false]
      refine ⟨(ih (k + 1)).1, ?_⟩
      intro i hi
      have := (ih (k + 1)).2 i hi
      omega

theorem filterIdxsFrom_length {α : Type} (p : α → Bool) :
    ∀ (l : List α) (k : Nat),
      (filterIdxsFrom p l k).length ≤ l.length := by
  intro l
  induction l with
  | nil => intro k; simp [filterIdxsFrom]
  | cons a rest ih =>
    intro k
    by_cases hpa : p a <;>
      simp only [filterIdxsFrom, hpa, if_true, Bool.false_eq_true, if_false,
        List.length_cons]
    · have := ih (k + 1)
      omega
    · have := ih (k + 1)
      omega

theorem get?_pred_iff {α : Type} (xs : List α) (d : α) (p : α → Bool)
    (i : Nat) :
    (∃ a, xs.get? i = some a ∧ p a = true) ↔
      (i < xs.length ∧ p (xs.getD i d) = true) := by
  constructor
  · rintro ⟨a, hg, hp⟩
    have hlt : i < xs.length := by
      by_contra h'
      rw [List.get?_eq_none.mpr (by omega)] at hg
      cases hg
    have hd : xs.getD i d = a := by
      rw [List.getD_eq_get?, hg]
      rfl
    exact ⟨hlt, hd ▸ hp⟩
  · rintro ⟨hlt, hp⟩
    cases hg : xs.get? i with
    | none =>
      rw [List.get?_eq_none] at hg
      omega
    | some a =>
      refine ⟨a, rfl, ?_⟩
      rw [List.getD_eq_get?, hg] at hp
      exact hp

theorem mem_filterIdxs_iff {α : Type} (p : α → Bool) (xs : List α) (d : α)
    (i : Nat) :
    i ∈ filterIdxsFrom p xs 0 ↔ (i < xs.length ∧ p (xs.getD i d) = true) := by
  rw [mem_filterIdxsFrom]
  rw [← get?_pred_iff xs d p i]
  constructor
  · rintro ⟨j, a, hg, hp, rfl⟩
    exact ⟨a, by simpa using hg, hp⟩
  · rintro ⟨a, hg, hp⟩
    exact ⟨i, a, hg, hp, by omega⟩

/-- The characterisation of filterIndicesTyped: a successful call returns
exactly the in-range row indices whose value matches, in increasing order,
and never more rows than the column has. -/
theorem seriesFilterIdxs_ok {s : Series} {operator : String} {v : Value}
    {idxs : List Nat} (h : seriesFilterIdxs s operator v = .ok idxs) :
    (∀ i, i ∈ idxs ↔ (i < s.length ∧ seriesMatchAt s operator v i = true)) ∧
    idxs.Pairwise (· < ·) ∧ idxs.length ≤ s.length := by
  obtain ⟨nm, data⟩ := s
  cases data with
  | strs xs =>
    simp only [seriesFilterIdxs] at h
    obtain rfl := Except.ok.inj h
    refine ⟨?_, (filterIdxsFrom_sorted_bdd _ xs 0).1, filterIdxsFrom_length _ xs 0⟩
    intro i
    exact mem_filterIdxs_iff _ xs "" i
  | ints xs =>
    simp only [seriesFilterIdxs] at h
    cases hc : toInt64 v with
    | none => rw [hc] at h; cases h
    | some cmp =>
      rw [hc] at h
      obtain rfl := Except.ok.inj h
      refine ⟨?_, (filterIdxsFrom_sorted_bdd _ xs 0).1, filterIdxsFrom_length _ xs 0⟩
      intro i
      rw [mem_filterIdxs_iff _ xs 0 i]
      simp [seriesMatchAt, hc, Series.length, ColData.length]
  | floats xs =>
    simp only [seriesFilterIdxs] at h
    cases hc : toFloat64 v with
    | none => rw [hc] at h; cases h
    | some cmp =>
      rw [hc] at h
      obtain rfl := Except.ok.inj h
      refine ⟨?_, (filterIdxsFrom_sorted_bdd _ xs 0).1, filterIdxsFrom_length _ xs 0⟩
      intro i
      rw [mem_filterIdxs_iff _ xs 0 i]
      simp [seriesMatchAt, hc, Series.length, ColData.length]
  | bools xs =>
    simp only [seriesFilterIdxs] at h
    cases v with
    | vbool b =>
      obtain rfl := Except.ok.inj h
      refine ⟨?_, (filterIdxsFrom_sorted_bdd _ xs 0).1, filterIdxsFrom_length _ xs 0⟩
      intro i
      rw [mem_filterIdxs_iff _ xs false i]
      simp [seriesMatchAt, Series.length, ColData.length]
    | vstr a => cases h
    | vint a => cases h
    | vfloat a => cases h
    | vtime a => cases h
  | times xs =>
    simp only [seriesFilterIdxs] at h
    cases v with
    | vtime t =>
      obtain rfl := Except.ok.inj h
      refine ⟨?_, (filterIdxsFrom_sorted_bdd _ xs 0).1, filterIdxsFrom_length _ xs 0⟩
      intro i
      rw [mem_filterIdxs_iff _ xs 0 i]
      simp [seriesMatchAt, Series.length, ColData.length]
    | vstr a => cases h
    | vint a => cases h
    | vfloat a => cases h
    | vbool a => cases h

theorem selectRows_err (df : DataFrame) (idxs : List Nat) (op : String) :
    (df.selectRows idxs op).err = none := by
  unfold DataFrame.selectRows
  by_cases h : idxs.isEmpty <;> simp [h]

theorem mapLookup_map_of_lookup {m : List (String × Series)}
    (hnd : (m.map Prod.fst).Nodup) (F : Series → ColData) {k : String}
    {s : Series} (hlk : mapLookup m k = some s) :
    mapLookup (m.map (fun p => (p.1, newSeries p.1 (F p.2)))) k =
      some (newSeries k (F s)) := by
  have hmem2 : (k, newSeries k (F s)) ∈
      m.map (fun p => (p.1, newSeries p.1 (F p.2))) :=
    List.mem_map.mpr ⟨(k, s), mem_of_mapLookup hlk, rfl⟩
  refine mapLookup_eq_of_mem ?_ hmem2
  have hkeys : (m.map (fun p => (p.1, newSeries p.1 (F p.2)))).map Prod.fst =
      m.map Prod.fst := by
    rw [List.map_map]
    rfl
  rw [hkeys]
  exact hnd

/-- Every Filter call on a non-error frame either fails onto a freshly
constructed error frame or produces an error-free result. -/
theorem filter_cases (df : DataFrame) (c o : String) (v : Value)
    (h : df.err = none) :
    (∃ e, df.filter c o v = ⟨[], [], 0, some e⟩) ∨
    (df.filter c o v).err = none := by
  unfold DataFrame.filter
  simp only [h]
  split
  · exact Or.inl ⟨_, rfl⟩
  · split
    · exact Or.inl ⟨_, rfl⟩
    · split
      · exact Or.inl ⟨_, rfl⟩
      · split
        · exact Or.inl ⟨_, rfl⟩
        · next idxs _ => exact Or.inr (selectRows_err df idxs "Filter")

/-! ## Claim theorems -/

/-- Claim C1: Filter never mutates its receiver — for every non-error
Table, the receiver object after any Filter call (first pair component of
the state-passing translation) is exactly the original frame, and whenever
the result carries an error it is a freshly constructed error frame
(empty columns, empty order, zero rows) holding only that error. -/
theorem c1_filter_never_mutates_receiver (df : DataFrame)
    (column operator : String) (value : Value) (h : df.err = none) :
    (df.filterCall column operator value).1 = df ∧
    (∀ e, (df.filterCall column operator value).2.err = some e →
      (df.filterCall column operator value).2 = ⟨[], [], 0, some e⟩) := by
  refine ⟨rfl, ?_⟩
  intro e he
  show df.filter column operator value = _
  have he2 : (df.filter column operator value).err = some e := he
  rcases filter_cases df column operator value h with ⟨e', hfe⟩ | hok
  · rw [hfe] at he2 ⊢
    simp only [Option.some.injEq] at he2
    rw [he2]
  · rw [hok] at he2
    cases he2

/-- Witness for C1 at a failing Filter call (unknown column) on a concrete
valid frame. -/
theorem c1_witness :
    dfInts.err = none ∧
    (dfInts.filterCall "missing" "==" (.vint 1)).1 = dfInts ∧
    (∀ e, (dfInts.filterCall "missing" "==" (.vint 1)).2.err = some e →
      (dfInts.filterCall "missing" "==" (.vint 1)).2 = ⟨[], [], 0, some e⟩) := by
  refine ⟨rfl, ?_⟩
  exact c1_filter_never_mutates_receiver dfInts "missing" "==" (.vint 1) rfl

/-- Claim C5: Filter semantics — on a valid non-empty frame, with the
filter column resolving to series `s` and the typed index collection
succeeding with `idxs`, the result is error-free, keeps the column order,
has exactly the matching rows (a row index is selected iff it is in range
and its value satisfies the comparison), keeps their original relative
order, has no more rows than the input, and every column is the gather of
the original column at those indices with its kind preserved. -/
theorem c5_filter_semantics (df : DataFrame) (column operator : String)
    (value : Value) (s : Series) (idxs : List Nat)
    (hv : df.Valid) (hne : df.length ≠ 0)
    (hcol : mapLookup df.columns column = some s)
    (hidx : seriesFilterIdxs s operator value = .ok idxs) :
    (df.filter column operator value).err = none ∧
    (df.filter column operator value).order = df.order ∧
    (df.filter column operator value).length = idxs.length ∧
    idxs.length ≤ df.length ∧
    (∀ i, i ∈ idxs ↔ (i < df.length ∧ seriesMatchAt s operator value i = true)) ∧
    idxs.Pairwise (· < ·) ∧
    (∀ name s0, mapLookup df.columns name = some s0 →
      mapLookup (df.filter column operator value).columns name =
        some (newSeries name (s0.data.selectIdxs idxs)) ∧
      (newSeries name (s0.data.selectIdxs idxs)).type = s0.type) := by
  obtain ⟨hmem, hsort, hlen⟩ := seriesFilterIdxs_ok hidx
  have hslen : s.length = df.length :=
    (hv.2.2.2 _ (mem_of_mapLookup hcol)).2
  have hvce : df.validateColumnExists column = none := by
    unfold DataFrame.validateColumnExists
    rw [hv.1, hcol]
    rfl
  have hvne : df.validateNotEmpty = none := by
    unfold DataFrame.validateNotEmpty
    rw [hv.1]
    have : (df.length == 0) = false := by simpa using hne
    rw [this]
    rfl
  have hred : df.filter column operator value = df.selectRows idxs "Filter" := by
    unfold DataFrame.filter
    simp only [hv.1, hvce, hvne, hcol, hidx]
  rw [hred, selectRows_of_valid hv idxs "Filter"]
  refine ⟨rfl, rfl, rfl, hslen ▸ hlen, ?_, hsort, ?_⟩
  · intro i
    rw [hmem i, hslen]
  · intro name s0 hlk0
    refine ⟨?_, selectIdxs_ctype s0.data idxs⟩
    exact mapLookup_map_of_lookup hv.2.2.1 (fun d => d.data.selectIdxs idxs) hlk0

/-- Witness for C5 on a concrete frame: filtering [1,2,3] with "> 1" keeps
exactly rows 1 and 2. -/
theorem c5_witness :
    (dfInts.filter "a" ">" (.vint 1)).length = 2 ∧
    (dfInts.filter "a" ">" (.vint 1)).order = ["a"] := by
  have h := c5_filter_semantics dfInts "a" ">" (.vint 1)
    ⟨"a", .ints [1, 2, 3]⟩ [1, 2] (by decide) (by decide) (by decide) (by decide)
  exact ⟨h.2.2.1, h.2.1⟩

/-- Claim C6: the error state is terminal — every chained transforming
operation returns the error-bearing frame itself, GroupBy carries the error
onto its handle and every aggregation short-circuits to it, and every read
accessor returns its defined default (0, empty, false) without consulting
the columns. -/
theorem c6_error_state_terminal (df : DataFrame) (e : OtterError)
    (h : df.err = some e) :
    (∀ c o v, df.filter c o v = df) ∧
    (∀ cols, df.select cols = df) ∧
    (∀ cols, df.drop cols = df) ∧
    (∀ cols asc, df.sortBy cols asc = df) ∧
    (∀ n, df.head n = df) ∧
    (∀ n, df.tail n = df) ∧
    (∀ q, df.query q = df) ∧
    (∀ cols, (df.groupBy cols).err = some e) ∧
    (∀ cols op, (df.groupBy cols).aggregate op = .error e) ∧
    df.shape = (0, 0) ∧ df.columnsList = [] ∧ df.len = 0 ∧ df.width = 0 ∧
    (∀ name, df.hasColumn name = false) := by
  refine ⟨?_, ?_, ?_, ?_, ?_, ?_, ?_, ?_, ?_, ?_, ?_, ?_, ?_, ?_⟩
  · intro c o v; unfold DataFrame.filter; rw [h]
  · intro cols; unfold DataFrame.select; rw [h]
  · intro cols; unfold DataFrame.drop; rw [h]
  · intro cols asc; unfold DataFrame.sortBy; rw [h]
  · intro n; unfold DataFrame.head; rw [h]
  · intro n; unfold DataFrame.tail; rw [h]
  · intro q; unfold DataFrame.query; rw [h]
  · intro cols; unfold DataFrame.groupBy; rw [h]
  · intro cols op
    unfold GroupByHandle.aggregate GroupByHandle.aggregateWithEnum
    unfold DataFrame.groupBy
    rw [h]
  · unfold DataFrame.shape; rw [h]
  · unfold DataFrame.columnsList; rw [h]
  · unfold DataFrame.len; rw [h]
  · unfold DataFrame.width; rw [h]
  · intro name; unfold DataFrame.hasColumn; rw [h]

/-- Witness for C6 on a concrete error-state frame. -/
theorem c6_witness :
    dfErr.err = some (newOpError "Boom" "boom") ∧
    dfErr.filter "a" "==" (.vint 1) = dfErr ∧
    dfErr.head 2 = dfErr ∧
    (dfErr.groupBy ["a"]).aggregate "sum" = .error (newOpError "Boom" "boom") ∧
    dfErr.shape = (0, 0) ∧ dfErr.columnsList = [] ∧
    dfErr.hasColumn "a" = false := by
  have h := c6_error_state_terminal dfErr (newOpError "Boom" "boom") rfl
  exact ⟨rfl, h.1 "a" "==" (.vint 1), h.2.2.2.2.1 2,
    h.2.2.2.2.2.2.2.2.1 ["a"] "sum", h.2.2.2.2.2.2.2.2.2.1,
    h.2.2.2.2.2.2.2.2.2.2.1, h.2.2.2.2.2.2.2.2.2.2.2.2.2 "a"⟩

/-- Counterexample to C7 as stated: on the valid frame with one Int64
column, Head(0) does NOT return an empty table with the same schema — the
result is error-bearing and has no columns at all. -/
theorem c7_counterexample :
    ¬((dfInts.head 0).err = none ∧ (dfInts.head 0).order = dfInts.order ∧
      (dfInts.head 0).length = 0) := by
  decide

/-- Claim C7 as amended: on a valid Table, Head(n)/Tail(n) with n ≤ 0
return a freshly constructed ERROR frame ("n must be positive"), not an
empty table; with 0 < n ≥ length they return a full copy (equal to the
receiver); with 0 < n < length they return the first (last) n rows with
order, kinds and every scalar kind including Timestamp handled uniformly;
in particular Tail(1) on a Timestamp column [t1,t2,t3] is exactly [t3]. -/
theorem c7_head_tail_amended (df : DataFrame) (n : Int) (hv : df.Valid) :
    (n ≤ 0 →
      df.head n = ⟨[], [], 0, some (newOpError "Head" "n must be positive")⟩ ∧
      df.tail n = ⟨[], [], 0, some (newOpError "Tail" "n must be positive")⟩) ∧
    (0 < n → (df.length : Int) ≤ n → df.head n = df ∧ df.tail n = df) ∧
    (0 < n → n < (df.length : Int) →
      ((df.head n).err = none ∧ (df.head n).order = df.order ∧
       (df.head n).length = n.toNat ∧
       (∀ name s0, mapLookup df.columns name = some s0 →
         mapLookup (df.head n).columns name =
           some (newSeries name (s0.data.sliceRange 0 n.toNat))) ∧
       (df.tail n).err = none ∧ (df.tail n).order = df.order ∧
       (df.tail n).length = n.toNat ∧
       (∀ name s0, mapLookup df.columns name = some s0 →
         mapLookup (df.tail n).columns name =
           some (newSeries name (s0.data.sliceRange (df.length - n.toNat) df.length))))) ∧
    dfTimes.tail 1 = ⟨[("t", ⟨"t", .times [3]⟩)], ["t"], 1, none⟩ := by
  refine ⟨?_, ?_, ?_, by decide⟩
  · intro hn
    constructor
    · unfold DataFrame.head
      rw [hv.1, if_pos hn]
      rfl
    · unfold DataFrame.tail
      rw [hv.1, if_pos hn]
      rfl
  · intro hn hlen
    constructor
    · unfold DataFrame.head
      rw [hv.1, if_neg (by omega), if_pos (by omega)]
      exact copy_of_valid hv
    · unfold DataFrame.tail
      rw [hv.1, if_neg (by omega), if_pos (by omega)]
      exact copy_of_valid hv
  · intro hn hlt
    have hnn : 0 < n.toNat := by omega
    have hnlen : n.toNat < df.length := by omega
    have hh : df.head n = df.slice 0 n.toNat "Head" := by
      unfold DataFrame.head
      rw [hv.1, if_neg (by omega), if_neg (by omega)]
    have ht : df.tail n = df.slice (df.length - n.toNat) df.length "Tail" := by
      unfold DataFrame.tail
      rw [hv.1, if_neg (by omega), if_neg (by omega)]
    rw [hh, ht]
    rw [slice_of_valid hv (by omega) (by omega) "Head"]
    rw [slice_of_valid hv (by omega) (by omega) "Tail"]
    refine ⟨rfl, rfl, by show n.toNat - 0 = n.toNat; omega, ?_, rfl, rfl,
      by show df.length - (df.length - n.toNat) = n.toNat; omega, ?_⟩
    · intro name s0 hlk0
      exact mapLookup_map_of_lookup hv.2.2.1
        (fun d => d.data.sliceRange 0 n.toNat) hlk0
    · intro name s0 hlk0
      exact mapLookup_map_of_lookup hv.2.2.1
        (fun d => d.data.sliceRange (df.length - n.toNat) df.length) hlk0

/-- Witness for the amended C7 on concrete frames: Head(0) errors,
Head(5)/Tail(5) copy, Head(2)/Tail(2) slice on a 3-row frame. -/
theorem c7_witness :
    dfInts.head 0 = ⟨[], [], 0, some (newOpError "Head" "n must be positive")⟩ ∧
    dfInts.head 5 = dfInts ∧
    (dfInts.head 2).length = 2 ∧ (dfInts.tail 2).length = 2 := by
  have h := c7_head_tail_amended dfInts 0 (by decide)
  have h5 := c7_head_tail_amended dfInts 5 (by decide)
  have h2 := c7_head_tail_amended dfInts 2 (by decide)
  refine ⟨(h.1 (by omega)).1, (h5.2.1 (by omega) (by decide)).1, ?_, ?_⟩
  · exact (h2.2.2.1 (by omega) (by decide)).2.2.1
  · exact (h2.2.2.1 (by omega) (by decide)).2.2.2.2.2.2.1

/-- Counterexample to C8 as stated: AddColumn on a valid one-column frame
DOES mutate the receiver — after the call the receiver object has gained
the new column. -/
theorem c8_counterexample : (dfOne.addColumnCall sB).1 ≠ dfOne := by
  decide

/-- Claim C8 as amended: DropColumn and RenameColumn are copy-on-write
(the receiver object is unchanged by the call, on success and error paths
alike); AddColumn leaves the receiver unchanged and returns a fresh
error-bearing result on its error paths (length mismatch, duplicate name),
but on its success path it MUTATES the receiver in place — appending the
copied series, and additionally adopting the series length when the frame
had no columns — and returns the mutated receiver itself as the result. -/
theorem c8_structural_ops_amended (df : DataFrame) (s : Series)
    (name oldName newName : String) (h : df.err = none) :
    (df.dropColumnCall name).1 = df ∧
    (df.renameColumnCall oldName newName).1 = df ∧
    (df.columns.length ≠ 0 → s.length ≠ df.length →
      df.addColumnCall s = (df, ⟨[], [], 0, some (newColumnError "AddColumn"
        s.name "series length does not match DataFrame length")⟩)) ∧
    (df.columns.length ≠ 0 → s.length = df.length →
      (mapLookup df.columns s.name).isSome = true →
      df.addColumnCall s = (df, ⟨[], [], 0,
        some (newColumnError "AddColumn" s.name "column already exists")⟩)) ∧
    (df.columns.length ≠ 0 → s.length = df.length →
      (mapLookup df.columns s.name).isSome = false →
      df.addColumnCall s =
        (df.addSeriesUnsafe s.copy, df.addSeriesUnsafe s.copy)) ∧
    (df.columns.length = 0 →
      df.addColumnCall s =
        ({ df with length := s.length }.addSeriesUnsafe s.copy,
         { df with length := s.length }.addSeriesUnsafe s.copy)) := by
  refine ⟨rfl, rfl, ?_, ?_, ?_, ?_⟩
  · intro hcols hlen
    unfold DataFrame.addColumnCall
    simp only [h]
    rw [if_neg (by simpa using hcols), if_pos hlen]
    rfl
  · intro hcols hlen hdup
    unfold DataFrame.addColumnCall
    simp only [h]
    rw [if_neg (by simpa using hcols),
      if_neg (show ¬s.length ≠ df.length from not_not.mpr hlen),
      if_pos hdup]
    rfl
  · intro hcols hlen hdup
    unfold DataFrame.addColumnCall
    simp only [h]
    rw [if_neg (by simpa using hcols),
      if_neg (show ¬s.length ≠ df.length from not_not.mpr hlen),
      if_neg (by simp [hdup])]
  · intro hcols
    unfold DataFrame.addColumnCall
    simp only [h]
    rw [if_pos (by simpa using hcols)]
    have hempty : df.columns = [] := List.length_eq_zero.mp hcols
    have hnone : mapLookup { df with length := s.length }.columns s.name = none := by
      show mapLookup df.columns s.name = none
      rw [hempty]
      rfl
    rw [hnone]
    rfl

/-- Witness for the amended C8 on concrete inputs: dropping a missing
column and renaming leave the receiver untouched; adding a fresh same-
length column takes the mutating success path. -/
theorem c8_witness :
    (dfOne.dropColumnCall "zz").1 = dfOne ∧
    (dfOne.renameColumnCall "a" "b").1 = dfOne ∧
    dfOne.addColumnCall sB = (dfOne.addSeriesUnsafe sB.copy,
      dfOne.addSeriesUnsafe sB.copy) := by
  have h := c8_structural_ops_amended dfOne sB "zz" "a" "b" rfl
  exact ⟨h.1, h.2.1, h.2.2.2.2.1 (by decide) (by decide) (by decide)⟩

/-- Claim C3 (code bug witness): NewDataFrameFromMap does NOT sort the
names — under the enumeration order zebra, mango, apple of the map used by
the repository's own TestDeterministicFromMap, the constructed column
sequence is the enumeration order, not the lexicographic sort the test and
the changelog require. -/
theorem c3_from_map_enumeration_order :
    (match newDataFrameFromMap c3Enum with
     | .ok df => df.columnsList
     | .error _ => []) = ["zebra", "mango", "apple"] ∧
    ["zebra", "mango", "apple"] ≠ ["apple", "mango", "zebra"] := by
  constructor
  · rfl
  · decide

theorem err_foldl_addSeriesUnsafe (series : List Series) :
    ∀ acc : DataFrame,
      (series.foldl (fun df s => df.addSeriesUnsafe s) acc).err = acc.err := by
  induction series with
  | nil => intro acc; rfl
  | cons s rest ih => intro acc; exact ih _

theorem foldl_addSeriesUnsafe_spec :
    ∀ (series : List Series) (acc : DataFrame),
      (series.map Series.name).Nodup →
      (∀ s ∈ series, s.name ∉ acc.columns.map Prod.fst) →
      series.foldl (fun df s => df.addSeriesUnsafe s) acc =
        { acc with columns := acc.columns ++ series.map (fun s => (s.name, s)),
                   order := acc.order ++ series.map Series.name } := by
  intro series
  induction series with
  | nil => intro acc _ _; simp
  | cons s rest ih =>
    intro acc hnd hfresh
    rcases List.nodup_cons.mp hnd with ⟨hsrest, hndr⟩
    have hins : mapInsert acc.columns s.name s = acc.columns ++ [(s.name, s)] :=
      mapInsert_of_not_mem _ (hfresh s (List.mem_cons_self _ _))
    show List.foldl (fun df s => df.addSeriesUnsafe s)
      (acc.addSeriesUnsafe s) rest = _
    have hacc : acc.addSeriesUnsafe s =
        { acc with columns := acc.columns ++ [(s.name, s)],
                   order := acc.order ++ [s.name] } := by
      unfold DataFrame.addSeriesUnsafe
      rw [hins]
    rw [hacc]
    rw [ih _ hndr (by
      intro t ht
      simp only [List.map_append, List.mem_append, List.map_cons, List.map_nil,
        List.mem_singleton, not_or]
      constructor
      · exact hfresh t (List.mem_cons_of_mem _ ht)
      · intro he
        exact hsrest (by
          rw [← he]
          exact List.mem_map.mpr ⟨t, ht, rfl⟩))]
    simp [List.append_assoc]

/-- Counterexample to C10 as stated: NewDataFrameFromSeries accepts two
series that share the name "a" — no uniqueness validation, no error — and
the resulting order sequence lists "a" twice, violating the
name-appears-exactly-once invariant the claim asserts. -/
theorem c10_counterexample :
    (match newDataFrameFromSeries [⟨"a", .ints [1]⟩, ⟨"a", .ints [2]⟩] with
     | .ok df => df.order
     | .error _ => []) = ["a", "a"] ∧
    ¬(["a", "a"] : List String).Nodup := by
  constructor
  · rfl
  · decide

/-- Claim C10 as amended: construction from a list of columns validates
only that all columns share one length — a mismatch is an error — and
performs NO name-uniqueness validation; when the supplied names ARE
distinct, the constructed frame is exactly the name-keyed association in
input order with every name appearing once in the order sequence and every
series retrievable from the map. -/
theorem c10_construction_amended (series : List Series)
    (hnd : (series.map Series.name).Nodup)
    (hval : validateSameLength series = none) :
    newDataFrameFromSeries series =
      .ok ⟨series.map (fun s => (s.name, s)), series.map Series.name,
           (series.head?.map Series.length).getD 0, none⟩ ∧
    (∀ s0 ∈ series,
      mapLookup (series.map (fun s => (s.name, s))) s0.name = some s0) ∧
    (∀ (l : List Series) (e : OtterError), validateSameLength l = some e →
      newDataFrameFromSeries l = .error e) := by
  refine ⟨?_, ?_, ?_⟩
  · cases series with
    | nil => rfl
    | cons s0 rest =>
      unfold newDataFrameFromSeries
      simp only [hval]
      show Except.ok (List.foldl (fun (df : DataFrame) (s : Series) =>
        df.addSeriesUnsafe s) (⟨[], [], s0.length, none⟩ : DataFrame)
        (s0 :: rest)) = _
      rw [foldl_addSeriesUnsafe_spec (s0 :: rest)
        (⟨[], [], s0.length, none⟩ : DataFrame) hnd
        (by intro t _ ht; simp at ht)]
      rfl
  · intro s0 hmem
    have hkeys : ((series.map (fun s => (s.name, s))).map Prod.fst) =
        series.map Series.name := by
      rw [List.map_map]
      rfl
    refine mapLookup_eq_of_mem (by rw [hkeys]; exact hnd) ?_
    exact List.mem_map.mpr ⟨s0, hmem, rfl⟩
  · intro l e hl
    cases l with
    | nil => cases hl
    | cons s0 rest =>
      unfold newDataFrameFromSeries
      simp only [hl]

/-- Witness for the amended C10 with two distinct same-length columns. -/
theorem c10_witness :
    newDataFrameFromSeries [⟨"a", .ints [1]⟩, ⟨"b", .ints [2]⟩] =
      .ok ⟨[("a", ⟨"a", .ints [1]⟩), ("b", ⟨"b", .ints [2]⟩)], ["a", "b"], 1, none⟩ ∧
    mapLookup [("a", (⟨"a", .ints [1]⟩ : Series)), ("b", ⟨"b", .ints [2]⟩)] "b" =
      some ⟨"b", .ints [2]⟩ := by
  have h := c10_construction_amended [⟨"a", .ints [1]⟩, ⟨"b", .ints [2]⟩]
    (by decide) (by decide)
  exact ⟨h.1, h.2.1 ⟨"b", .ints [2]⟩ (by decide)⟩

/-- Counterexample to C9 as stated: Sum performs no emptiness check — on
the zero-row numeric column it returns 0 without error — and ValueCounts
has no numeric-kind requirement — on a String column it succeeds with one
result row per distinct value. -/
theorem c9_counterexample :
    dfEmptyNum.sumStat "x" = .ok 0 ∧
    (match dfStrs.valueCounts "s" with
     | .ok df => df.length
     | .error _ => 0) = 2 := by
  constructor
  · rfl
  · rfl

theorem validateColumnExists_none {df : DataFrame} (hv : df.Valid)
    {c : String} {s : Series} (hcol : mapLookup df.columns c = some s) :
    df.validateColumnExists c = none := by
  unfold DataFrame.validateColumnExists
  rw [hv.1, hcol]
  rfl

theorem validateNotEmpty_zero {df : DataFrame} (he : df.err = none)
    (h0 : df.length = 0) :
    df.validateNotEmpty =
      some (newOpError "Operation" "cannot operate on empty DataFrame") := by
  unfold DataFrame.validateNotEmpty
  rw [he, h0]
  rfl

theorem fromMap_two_ok (c1 c2 : String) (v1 : List String) (v2 : List Int)
    (hlen : v1.length = v2.length) :
    ∃ res, newDataFrameFromMap [(c1, .strs v1), (c2, .ints v2)] = .ok res ∧
      res.err = none := by
  have hval : validateSameLength
      [newSeries c1 (.strs v1), newSeries c2 (.ints v2)] = none := by
    simp [validateSameLength, Series.length, ColData.length, newSeries, hlen]
  unfold newDataFrameFromMap newDataFrameFromSeries
  simp only [List.map_cons, List.map_nil, hval]
  refine ⟨_, rfl, ?_⟩
  rw [err_foldl_addSeriesUnsafe]
  rfl

/-- Claim C9 as amended: Mean, Min, Max, Std, Var, Median, Quantile and
NumericSummary error out on a non-numeric column and on an empty (or, for
Std, single-value) column; Sum, however, has no emptiness check and
returns 0 without error on a zero-row numeric column, and ValueCounts
requires only that the column exist — it succeeds for every column kind. -/
theorem c9_stats_amended (df : DataFrame) (column : String) (s : Series)
    (hv : df.Valid) (hcol : mapLookup df.columns column = some s) :
    (s.type ≠ .int64Type → s.type ≠ .float64Type →
      (∃ e, df.sumStat column = .error e) ∧
      (∃ e, df.meanStat column = .error e) ∧
      (∃ e, df.minStat column = .error e) ∧
      (∃ e, df.maxStat column = .error e) ∧
      (∃ e, df.stdVariance column = .error e) ∧
      (∃ e, df.varStat column = .error e) ∧
      (∃ e, df.medianStat column = .error e) ∧
      (∀ q : ℚ, ¬q < 0 → ¬q > 1 → ∃ e, df.quantileStat column q = .error e) ∧
      (∃ e, df.numericSummary column = .error e)) ∧
    (df.length = 0 →
      (∃ e, df.meanStat column = .error e) ∧
      (∃ e, df.minStat column = .error e) ∧
      (∃ e, df.maxStat column = .error e) ∧
      (∃ e, df.stdVariance column = .error e) ∧
      (∃ e, df.medianStat column = .error e) ∧
      (∀ q : ℚ, ¬q < 0 → ¬q > 1 → ∃ e, df.quantileStat column q = .error e) ∧
      (s.type = .int64Type ∨ s.type = .float64Type →
        df.sumStat column = .ok 0)) ∧
    (∃ res, df.valueCounts column = .ok res ∧ res.err = none) := by
  have hvce := validateColumnExists_none hv hcol
  have hslen : s.length = df.length := (hv.2.2.2 _ (mem_of_mapLookup hcol)).2
  refine ⟨?_, ?_, ?_⟩
  · intro h1 h2
    have hdata : (∃ xs, s.data = .strs xs) ∨ (∃ xs, s.data = .bools xs) ∨
        (∃ xs, s.data = .times xs) := by
      cases hd : s.data with
      | ints xs => exact absurd (by rw [Series.type, hd]; rfl) h1
      | floats xs => exact absurd (by rw [Series.type, hd]; rfl) h2
      | strs xs => exact Or.inl ⟨xs, rfl⟩
      | bools xs => exact Or.inr (Or.inl ⟨xs, rfl⟩)
      | times xs => exact Or.inr (Or.inr ⟨xs, rfl⟩)
    have htype : (s.type != ColumnType.int64Type &&
        s.type != ColumnType.float64Type) = true := by
      rcases hdata with ⟨xs, hd⟩ | ⟨xs, hd⟩ | ⟨xs, hd⟩ <;>
        rw [Series.type, hd] <;> rfl
    have hsum : ∃ e, df.sumStat column = .error e := by
      rcases hdata with ⟨xs, hd⟩ | ⟨xs, hd⟩ | ⟨xs, hd⟩ <;>
        exact ⟨_, by simp only [DataFrame.sumStat, hv.1, hvce, hcol, hd]; rfl⟩
    have hmean : ∃ e, df.meanStat column = .error e := by
      cases hvn : df.validateNotEmpty with
      | some e =>
        exact ⟨e, by simp only [DataFrame.meanStat, hv.1, hvn]⟩
      | none =>
        obtain ⟨e, he⟩ := hsum
        exact ⟨e, by simp only [DataFrame.meanStat, hv.1, hvn, he]⟩
    have hmin : ∃ e, df.minStat column = .error e := by
      cases hvn : df.validateNotEmpty with
      | some e =>
        exact ⟨e, by simp only [DataFrame.minStat, hv.1, hvce, hvn]⟩
      | none =>
        rcases hdata with ⟨xs, hd⟩ | ⟨xs, hd⟩ | ⟨xs, hd⟩ <;>
          exact ⟨_, by
            simp only [DataFrame.minStat, hv.1, hvce, hvn, hcol, hd]; rfl⟩
    have hmax : ∃ e, df.maxStat column = .error e := by
      cases hvn : df.validateNotEmpty with
      | some e =>
        exact ⟨e, by simp only [DataFrame.maxStat, hv.1, hvce, hvn]⟩
      | none =>
        rcases hdata with ⟨xs, hd⟩ | ⟨xs, hd⟩ | ⟨xs, hd⟩ <;>
          exact ⟨_, by
            simp only [DataFrame.maxStat, hv.1, hvce, hvn, hcol, hd]; rfl⟩
    have hstd : ∃ e, df.stdVariance column = .error e :=
      ⟨_, by
        simp only [DataFrame.stdVariance, hv.1, hvce, hcol]
        rw [if_pos htype]⟩
    have hmed : ∃ e, df.medianStat column = .error e :=
      ⟨_, by
        simp only [DataFrame.medianStat, hv.1, hvce, hcol]
        rw [if_pos htype]⟩
    refine ⟨hsum, hmean, hmin, hmax, hstd, hstd, hmed, ?_, ?_⟩
    · intro q hq0 hq1
      have hqc : (decide (q < 0) || decide (q > 1)) = false := by
        simp [hq0, hq1]
      exact ⟨_, by
        simp only [DataFrame.quantileStat, hv.1]
        rw [if_neg (by simp [hqc])]
        simp only [hvce, hcol]
        rw [if_pos htype]⟩
    · exact ⟨_, by
        simp only [DataFrame.numericSummary, hv.1, hvce, hcol]
        rw [if_pos htype]⟩
  · intro h0
    have hvn := validateNotEmpty_zero hv.1 h0
    have hlen1 : s.length ≤ 1 := by omega
    refine ⟨?_, ?_, ?_, ?_, ?_, ?_, ?_⟩
    · exact ⟨_, by simp only [DataFrame.meanStat, hv.1, hvn]; rfl⟩
    · exact ⟨_, by simp only [DataFrame.minStat, hv.1, hvce, hvn]; rfl⟩
    · exact ⟨_, by simp only [DataFrame.maxStat, hv.1, hvce, hvn]; rfl⟩
    · cases htb : (s.type != ColumnType.int64Type &&
          s.type != ColumnType.float64Type) with
      | true =>
        exact ⟨_, by
          simp only [DataFrame.stdVariance, hv.1, hvce, hcol]
          rw [if_pos htb]⟩
      | false =>
        exact ⟨_, by
          simp only [DataFrame.stdVariance, hv.1, hvce, hcol]
          rw [if_neg (by simp [htb]), if_pos hlen1]⟩
    · cases htb : (s.type != ColumnType.int64Type &&
          s.type != ColumnType.float64Type) with
      | true =>
        exact ⟨_, by
          simp only [DataFrame.medianStat, hv.1, hvce, hcol]
          rw [if_pos htb]⟩
      | false =>
        exact ⟨_, by
          simp only [DataFrame.medianStat, hv.1, hvce, hcol]
          rw [if_neg (by simp [htb]), hvn]⟩
    · intro q hq0 hq1
      have hqc : (decide (q < 0) || decide (q > 1)) = false := by
        simp [hq0, hq1]
      cases htb : (s.type != ColumnType.int64Type &&
          s.type != ColumnType.float64Type) with
      | true =>
        exact ⟨_, by
          simp only [DataFrame.quantileStat, hv.1]
          rw [if_neg (by simp [hqc])]
          simp only [hvce, hcol]
          rw [if_pos htb]⟩
      | false =>
        exact ⟨_, by
          simp only [DataFrame.quantileStat, hv.1]
          rw [if_neg (by simp [hqc])]
          simp only [hvce, hcol]
          rw [if_neg (by simp [htb]), hvn]⟩
    · intro ht
      cases hd : s.data with
      | ints xs =>
        have hxs : xs = [] := by
          refine List.length_eq_zero.mp ?_
          have h2 := hslen
          rw [Series.length, hd] at h2
          simp only [ColData.length] at h2
          omega
        simp only [DataFrame.sumStat, hv.1, hvce, hcol, hd, hxs]
        rfl
      | floats xs =>
        have hxs : xs = [] := by
          refine List.length_eq_zero.mp ?_
          have h2 := hslen
          rw [Series.length, hd] at h2
          simp only [ColData.length] at h2
          omega
        simp only [DataFrame.sumStat, hv.1, hvce, hcol, hd, hxs]
        rfl
      | strs xs =>
        rcases ht with ht | ht <;> rw [Series.type, hd] at ht <;> cases ht
      | bools xs =>
        rcases ht with ht | ht <;> rw [Series.type, hd] at ht <;> cases ht
      | times xs =>
        rcases ht with ht | ht <;> rw [Series.type, hd] at ht <;> cases ht
  · have hred : df.valueCounts column = newDataFrameFromMap
        [(column, .strs ((List.insertionSort (fun a b : String × Nat => b.2 ≤ a.2)
            (((List.range s.length).map (fun i => seriesValueToString s i)).foldl
              (fun acc k => countsInsert acc k) [])).map Prod.fst)),
         ("count", .ints ((List.insertionSort (fun a b : String × Nat => b.2 ≤ a.2)
            (((List.range s.length).map (fun i => seriesValueToString s i)).foldl
              (fun acc k => countsInsert acc k) [])).map (fun p => (p.2 : Int))))] := by
      unfold DataFrame.valueCounts
      simp only [hv.1, hvce, hcol]
    rw [hred]
    exact fromMap_two_ok _ _ _ _ (by simp)

/-- Witness for the amended C9: non-numeric Sum errors on the String
column; Sum on the zero-row numeric column returns 0; ValueCounts succeeds
on the String column. -/
theorem c9_witness :
    (∃ e, dfStrs.sumStat "s" = .error e) ∧
    dfEmptyNum.sumStat "x" = .ok 0 ∧
    (∃ res, dfStrs.valueCounts "s" = .ok res ∧ res.err = none) := by
  have hS := c9_stats_amended dfStrs "s" ⟨"s", .strs ["a", "b", "a"]⟩
    (by decide) (by decide)
  have hE := c9_stats_amended dfEmptyNum "x" ⟨"x", .ints []⟩
    (by decide) (by decide)
  exact ⟨(hS.1 (by decide) (by decide)).1,
    (hE.2.1 rfl).2.2.2.2.2.2 (Or.inl rfl), hS.2.2⟩

/-! ### C4: deterministic aggregation order -/

theorem char_toNat_inj {a b : Char} (h : a.toNat = b.toNat) : a = b :=
  Char.ext (UInt32.ext_iff.mpr h)

theorem charListLe_total :
    ∀ l1 l2 : List Char, charListLe l1 l2 = true ∨ charListLe l2 l1 = true := by
  intro l1
  induction l1 with
  | nil => intro l2; exact Or.inl rfl
  | cons a as ih =>
    intro l2
    cases l2 with
    | nil => exact Or.inr rfl
    | cons b bs =>
      by_cases hab : a.toNat < b.toNat
      · left
        simp [charListLe, hab]
      · by_cases hba : b.toNat < a.toNat
        · right
          simp [charListLe, hba]
        · have heq : a.toNat = b.toNat := by omega
          rcases ih bs with h | h
          · left
            simp [charListLe, hab, heq, h]
          · right
            simp [charListLe, hba, heq.symm, h]

theorem charListLe_trans :
    ∀ l1 l2 l3 : List Char, charListLe l1 l2 = true → charListLe l2 l3 = true →
      charListLe l1 l3 = true := by
  intro l1
  induction l1 with
  | nil => intro l2 l3 _ _; rfl
  | cons a as ih =>
    intro l2 l3 h12 h23
    cases l2 with
    | nil => cases h12
    | cons b bs =>
      cases l3 with
      | nil => cases h23
      | cons c cs =>
        simp only [charListLe, Bool.or_eq_true, Bool.and_eq_true,
          decide_eq_true_eq, beq_iff_eq] at h12 h23 ⊢
        rcases h12 with h | ⟨hab, h12'⟩
        · rcases h23 with h' | ⟨hbc, h23'⟩
          · left; omega
          · left; omega
        · rcases h23 with h' | ⟨hbc, h23'⟩
          · left; omega
          · exact Or.inr ⟨by omega, ih bs cs h12' h23'⟩

theorem charListLe_antisymm :
    ∀ l1 l2 : List Char, charListLe l1 l2 = true → charListLe l2 l1 = true →
      l1 = l2 := by
  intro l1
  induction l1 with
  | nil =>
    intro l2 _ h21
    cases l2 with
    | nil => rfl
    | cons b bs => cases h21
  | cons a as ih =>
    intro l2 h12 h21
    cases l2 with
    | nil => cases h12
    | cons b bs =>
      simp only [charListLe, Bool.or_eq_true, Bool.and_eq_true,
        decide_eq_true_eq, beq_iff_eq] at h12 h21
      rcases h12 with h | ⟨hab, h12'⟩
      · rcases h21 with h' | ⟨hba, _⟩
        · omega
        · omega
      · rcases h21 with h' | ⟨hba, h21'⟩
        · omega
        · rw [char_toNat_inj hab, ih bs h12' h21']

/-- `find?` by key is invariant under permutation of an association list
with no duplicate keys (Go's map lookup is well defined however the
buckets are ordered). -/
theorem find?_perm_nodupkeys {α : Type} (k : String) :
    ∀ {l1 l2 : List (String × α)}, l1.Perm l2 → (l1.map Prod.fst).Nodup →
      l1.find? (fun p => p.1 == k) = l2.find? (fun p => p.1 == k) := by
  intro l1 l2 hp
  induction hp with
  | nil => intro _; rfl
  | cons x hptl ih =>
    intro hnd
    simp only [List.map_cons, List.nodup_cons] at hnd
    cases hx : (x.1 == k) with
    | true => simp only [List.find?, hx]
    | false =>
      simp only [List.find?, hx]
      exact ih hnd.2
  | swap x y l =>
    intro hnd
    cases hy : (y.1 == k) with
    | true =>
      cases hx : (x.1 == k) with
      | true =>
        exfalso
        simp only [List.map_cons, List.nodup_cons, List.mem_cons] at hnd
        exact hnd.1 (Or.inl ((eq_of_beq hy).trans (eq_of_beq hx).symm))
      | false => simp only [List.find?, hy, hx]
    | false =>
      cases hx : (x.1 == k) with
      | true => simp only [List.find?, hy, hx]
      | false => simp only [List.find?, hy, hx]
  | trans hp1 hp2 ih1 ih2 =>
    intro hnd
    rw [ih1 hnd, ih2 ((hp1.map Prod.fst).nodup hnd)]

/-- C4: group-by aggregation is independent of the enumeration order of
the internal (unordered) group map — any two enumerations that are
permutations of each other (with the distinct keys a hash map guarantees)
yield identical output — and the emitted row order is the byte-lexicographic
sort of the encoded keys: the key sequence used to build the output is
sorted under the byte-wise order and is a permutation of the collected
keys. -/
theorem c4_aggregate_deterministic (gb : GroupByHandle) (operation : String)
    (enum1 enum2 : List (String × GroupEntry))
    (hp : enum1.Perm enum2) (hnd : (enum1.map Prod.fst).Nodup) :
    gb.aggregateWithEnum operation enum1 = gb.aggregateWithEnum operation enum2 ∧
    List.Sorted (fun a b : String => strLe a b = true)
      (List.insertionSort (fun a b : String => strLe a b = true)
        (enum1.map Prod.fst)) ∧
    (List.insertionSort (fun a b : String => strLe a b = true)
      (enum1.map Prod.fst)).Perm (enum1.map Prod.fst) := by
  haveI htot : IsTotal String (fun a b : String => strLe a b = true) :=
    ⟨fun a b => charListLe_total a.data b.data⟩
  haveI htr : IsTrans String (fun a b : String => strLe a b = true) :=
    ⟨fun a b c h1 h2 => charListLe_trans a.data b.data c.data h1 h2⟩
  haveI hanti : IsAntisymm String (fun a b : String => strLe a b = true) :=
    ⟨fun a b h1 h2 => String.ext (charListLe_antisymm a.data b.data h1 h2)⟩
  refine ⟨?_, List.sorted_insertionSort _ _, List.perm_insertionSort _ _⟩
  unfold GroupByHandle.aggregateWithEnum
  cases he : gb.err with
  | some e => simp only [he]
  | none =>
    simp only [he]
    have hkeys : List.insertionSort (fun a b : String => strLe a b = true)
        (enum1.map Prod.fst) =
        List.insertionSort (fun a b : String => strLe a b = true)
          (enum2.map Prod.fst) := by
      refine List.eq_of_perm_of_sorted ?_ (List.sorted_insertionSort _ _)
        (List.sorted_insertionSort _ _)
      exact (List.perm_insertionSort _ _).trans
        ((hp.map Prod.fst).trans (List.perm_insertionSort _ _).symm)
    rw [hkeys]
    congr 1
    funext k
    rw [find?_perm_nodupkeys k hp hnd]

/-! ### C2: injectivity of the length-prefixed group key -/

theorem digitsFuel_congr :
    ∀ f g n : Nat, n < f → n < g → digitsFuel f n = digitsFuel g n := by
  intro f
  induction f with
  | zero => intro g n hf _; exact absurd hf (Nat.not_lt_zero n)
  | succ f ih =>
    intro g n hf hg
    cases g with
    | zero => exact absurd hg (Nat.not_lt_zero n)
    | succ g' =>
      rw [show digitsFuel (f + 1) n = (if n < 10 then [digitChar n]
            else digitsFuel f (n / 10) ++ [digitChar (n % 10)]) from rfl,
          show digitsFuel (g' + 1) n = (if n < 10 then [digitChar n]
            else digitsFuel g' (n / 10) ++ [digitChar (n % 10)]) from rfl]
      by_cases h10 : n < 10
      · rw [if_pos h10, if_pos h10]
      · rw [if_neg h10, if_neg h10]
        congr 1
        have hd : n / 10 < n := Nat.div_lt_self (by omega) (by omega)
        exact ih g' (n / 10) (by omega) (by omega)

theorem natRepr_eq (n : Nat) :
    natRepr n = if n < 10 then [digitChar n]
      else natRepr (n / 10) ++ [digitChar (n % 10)] := by
  have h0 : natRepr n = digitsFuel (n + 1) n := rfl
  rw [h0, show digitsFuel (n + 1) n = (if n < 10 then [digitChar n]
        else digitsFuel n (n / 10) ++ [digitChar (n % 10)]) from rfl]
  by_cases h10 : n < 10
  · rw [if_pos h10, if_pos h10]
  · rw [if_neg h10, if_neg h10]
    congr 1
    exact digitsFuel_congr n (n / 10 + 1) (n / 10)
      (Nat.div_lt_self (by omega) (by omega)) (by omega)

theorem digitChar_toNat {d : Nat} (hd : d < 10) : (digitChar d).toNat = 48 + d := by
  interval_cases d <;> decide

theorem natRepr_digits (n : Nat) :
    ∀ c ∈ natRepr n, 48 ≤ c.toNat ∧ c.toNat ≤ 57 := by
  induction n using Nat.strong_induction_on with
  | _ n ih =>
    rw [natRepr_eq]
    by_cases h10 : n < 10
    · rw [if_pos h10]
      intro c hc
      rw [List.mem_singleton] at hc
      rw [hc, digitChar_toNat h10]
      omega
    · rw [if_neg h10]
      intro c hc
      rw [List.mem_append, List.mem_singleton] at hc
      rcases hc with hc | rfl
      · exact ih (n / 10) (Nat.div_lt_self (by omega) (by omega)) c hc
      · rw [digitChar_toNat (Nat.mod_lt n (by omega))]
        omega

theorem natRepr_ne_nil (n : Nat) : natRepr n ≠ [] := by
  rw [natRepr_eq]
  by_cases h10 : n < 10
  · rw [if_pos h10]
    exact List.cons_ne_nil _ _
  · rw [if_neg h10]
    intro h
    rcases List.append_eq_nil.mp h with ⟨_, h2⟩
    cases h2

theorem digitsVal_natRepr (n : Nat) : digitsVal (natRepr n) = n := by
  induction n using Nat.strong_induction_on with
  | _ n ih =>
    rw [natRepr_eq]
    by_cases h10 : n < 10
    · rw [if_pos h10]
      show 10 * 0 + ((digitChar n).toNat - 48) = n
      rw [digitChar_toNat h10]
      omega
    · rw [if_neg h10]
      unfold digitsVal
      rw [List.foldl_append]
      have ihv := ih (n / 10) (Nat.div_lt_self (by omega) (by omega))
      unfold digitsVal at ihv
      rw [List.foldl_cons, List.foldl_nil, ihv]
      show 10 * (n / 10) + ((digitChar (n % 10)).toNat - 48) = n
      rw [digitChar_toNat (Nat.mod_lt n (by omega))]
      omega

theorem natRepr_inj {a b : Nat} (h : natRepr a = natRepr b) : a = b := by
  have ha := digitsVal_natRepr a
  rw [h, digitsVal_natRepr] at ha
  omega

/-- Splitting at a separator character that occurs in neither prefix is
unambiguous. -/
theorem append_sep_inj (sep : Char) :
    ∀ a1 a2 b1 b2 : List Char, (∀ c ∈ a1, c ≠ sep) → (∀ c ∈ a2, c ≠ sep) →
      a1 ++ sep :: b1 = a2 ++ sep :: b2 → a1 = a2 ∧ b1 = b2 := by
  intro a1
  induction a1 with
  | nil =>
    intro a2 b1 b2 _ ha2 h
    cases a2 with
    | nil =>
      refine ⟨rfl, ?_⟩
      simpa using h
    | cons c rest =>
      simp only [List.nil_append, List.cons_append, List.cons.injEq] at h
      exact absurd h.1.symm (ha2 c (List.mem_cons_self c rest))
  | cons c rest ih =>
    intro a2 b1 b2 ha1 ha2 h
    cases a2 with
    | nil =>
      simp only [List.cons_append, List.nil_append, List.cons.injEq] at h
      exact absurd h.1 (ha1 c (List.mem_cons_self c rest))
    | cons d rest2 =>
      simp only [List.cons_append, List.cons.injEq] at h
      obtain ⟨rfl, h2⟩ := h
      obtain ⟨he1, he2⟩ := ih rest2 b1 b2
        (fun x hx => ha1 x (List.mem_cons_of_mem _ hx))
        (fun x hx => ha2 x (List.mem_cons_of_mem _ hx)) h2
      exact ⟨by rw [he1], he2⟩

theorem natRepr_no_colon (n : Nat) : ∀ c ∈ natRepr n, c ≠ ':' := by
  intro c hc he
  have h := natRepr_digits n c hc
  rw [he] at h
  exact absurd h (by decide)

/-- A length-prefixed component determines itself and whatever follows
it. -/
theorem encComp_append_inj {s1 s2 r1 r2 : List Char}
    (h : encComp s1 ++ r1 = encComp s2 ++ r2) : s1 = s2 ∧ r1 = r2 := by
  unfold encComp at h
  rw [List.append_assoc, List.append_assoc] at h
  simp only [List.cons_append] at h
  obtain ⟨hd, ht⟩ := append_sep_inj ':' _ _ _ _ (natRepr_no_colon _)
    (natRepr_no_colon _) h
  have hlen : s1.length = s2.length := natRepr_inj hd
  exact List.append_inj ht hlen

theorem encComp_ne_nil (s : List Char) : encComp s ≠ [] := by
  unfold encComp
  intro h
  exact absurd (List.append_eq_nil.mp h).1 (natRepr_ne_nil _)

/-- The composite encoded key is injective on component lists, even when a
component contains the NUL separator or a digit/colon prefix. -/
theorem encKey_inj : ∀ p1 p2 : List (List Char), encKey p1 = encKey p2 → p1 = p2 := by
  intro p1
  induction p1 with
  | nil =>
    intro p2 h
    cases p2 with
    | nil => rfl
    | cons t ts =>
      exfalso
      cases ts with
      | nil => exact absurd h.symm (encComp_ne_nil t)
      | cons u us =>
        have h' : ([] : List Char) =
            encComp t ++ nulChar :: encKey (u :: us) := h
        exact absurd (List.append_eq_nil.mp h'.symm).1 (encComp_ne_nil t)
  | cons s ss ih =>
    intro p2 h
    cases p2 with
    | nil =>
      exfalso
      cases ss with
      | nil => exact absurd h (encComp_ne_nil s)
      | cons u us =>
        have h' : encComp s ++ nulChar :: encKey (u :: us) =
            ([] : List Char) := h
        exact absurd (List.append_eq_nil.mp h').1 (encComp_ne_nil s)
    | cons t ts =>
      cases ss with
      | nil =>
        cases ts with
        | nil =>
          have h' : encComp s ++ ([] : List Char) = encComp t ++ [] := by
            rw [List.append_nil, List.append_nil]
            exact h
          rw [(encComp_append_inj h').1]
        | cons u us =>
          exfalso
          have h' : encComp s ++ ([] : List Char) =
              encComp t ++ nulChar :: encKey (u :: us) := by
            rw [List.append_nil]
            exact h
          exact List.noConfusion (encComp_append_inj h').2
      | cons u us =>
        cases ts with
        | nil =>
          exfalso
          have h' : encComp s ++ nulChar :: encKey (u :: us) =
              encComp t ++ ([] : List Char) := by
            rw [List.append_nil]
            exact h
          exact List.noConfusion (encComp_append_inj h').2
        | cons w ws =>
          have h' : encComp s ++ nulChar :: encKey (u :: us) =
              encComp t ++ nulChar :: encKey (w :: ws) := h
          obtain ⟨hs, hr⟩ := encComp_append_inj h'
          injection hr with _ hr2
          rw [hs, ih (w :: ws) hr2]

theorem encKeyStr_inj {p1 p2 : List String} (h : encKeyStr p1 = encKeyStr p2) :
    p1 = p2 := by
  have hdata : encKey (p1.map String.data) = encKey (p2.map String.data) :=
    congrArg String.data h
  exact List.map_injective_iff.mpr (fun a b hab => String.ext hab)
    (encKey_inj _ _ hdata)

/-- Witness for C4: the two-group demo enumeration and its reversal give
the same aggregate. -/
theorem c4_witness :
    ([("3:a|b", (⟨["a|b"], [0, 1]⟩ : GroupEntry)), ("1:a", ⟨["a"], [2]⟩)].Perm
      [("1:a", (⟨["a"], [2]⟩ : GroupEntry)), ("3:a|b", ⟨["a|b"], [0, 1]⟩)]) ∧
    (dfDemo.groupBy ["category"]).aggregateWithEnum "sum"
        [("3:a|b", ⟨["a|b"], [0, 1]⟩), ("1:a", ⟨["a"], [2]⟩)] =
      (dfDemo.groupBy ["category"]).aggregateWithEnum "sum"
        [("1:a", ⟨["a"], [2]⟩), ("3:a|b", ⟨["a|b"], [0, 1]⟩)] := by
  refine ⟨by decide, ?_⟩
  exact (c4_aggregate_deterministic (dfDemo.groupBy ["category"]) "sum"
    [("3:a|b", ⟨["a|b"], [0, 1]⟩), ("1:a", ⟨["a"], [2]⟩)]
    [("1:a", ⟨["a"], [2]⟩), ("3:a|b", ⟨["a|b"], [0, 1]⟩)]
    (by decide) (by decide)).1

theorem intReprChars_digit_bound (i : Int) :
    ∀ c ∈ intReprChars i, c.toNat = 45 ∨ (48 ≤ c.toNat ∧ c.toNat ≤ 57) := by
  unfold intReprChars
  by_cases hneg : i < 0
  · rw [if_pos hneg]
    intro c hc
    rw [List.mem_cons] at hc
    rcases hc with rfl | hc
    · left
      decide
    · right
      exact natRepr_digits _ c hc
  · rw [if_neg hneg]
    intro c hc
    right
    exact natRepr_digits _ c hc

/-- strconv.FormatInt is injective: the '-' sign mark (not a digit)
disambiguates the sign, the digit run the magnitude. -/
theorem intReprChars_inj {a b : Int} (h : intReprChars a = intReprChars b) :
    a = b := by
  unfold intReprChars at h
  by_cases ha : a < 0 <;> by_cases hb : b < 0
  · rw [if_pos ha, if_pos hb] at h
    injection h with _ h2
    have := natRepr_inj h2
    omega
  · rw [if_pos ha, if_neg hb] at h
    exfalso
    cases hr : natRepr b.natAbs with
    | nil => exact natRepr_ne_nil _ hr
    | cons c cs =>
      rw [hr] at h
      injection h with h1 _
      have hc := natRepr_digits b.natAbs c (by rw [hr]; exact List.mem_cons_self c cs)
      rw [← h1] at hc
      exact absurd hc (by decide)
  · rw [if_neg ha, if_pos hb] at h
    exfalso
    cases hr : natRepr a.natAbs with
    | nil => exact natRepr_ne_nil _ hr
    | cons c cs =>
      rw [hr] at h
      injection h with h1 _
      have hc := natRepr_digits a.natAbs c (by rw [hr]; exact List.mem_cons_self c cs)
      rw [h1] at hc
      exact absurd hc (by decide)
  · rw [if_neg ha, if_neg hb] at h
    have := natRepr_inj h
    omega

theorem intRepr_inj {a b : Int} (h : intRepr a = intRepr b) : a = b :=
  intReprChars_inj (congrArg String.data h)

theorem intReprChars_no_slash (i : Int) : ∀ c ∈ intReprChars i, c ≠ '/' := by
  intro c hc he
  rcases intReprChars_digit_bound i c hc with h45 | hd
  · rw [he] at h45
    exact absurd h45 (by decide)
  · rw [he] at hd
    exact absurd hd (by decide)

/-- The model of strconv.FormatFloat(v, 'g', -1, 64) is injective, which
is the defining property of Go's shortest-round-trip float format. -/
theorem ratRepr_inj {p q : ℚ} (h : ratRepr p = ratRepr q) : p = q := by
  have hd : intReprChars p.num ++ '/' :: natRepr p.den =
      intReprChars q.num ++ '/' :: natRepr q.den := congrArg String.data h
  obtain ⟨hn, hdn⟩ := append_sep_inj '/' _ _ _ _ (intReprChars_no_slash _)
    (intReprChars_no_slash _) hd
  exact Rat.ext (intReprChars_inj hn) (natRepr_inj hdn)

theorem get?_eq_some_getD {α : Type} (xs : List α) (d : α) {i : Nat}
    (h : i < xs.length) : xs.get? i = some (xs.getD i d) := by
  rw [List.get?_eq_get h, List.getD_eq_get?, List.get?_eq_get h]
  rfl

/-- On in-range rows, seriesValueToString renders equal text exactly for
equal stored values: Go's per-kind formatters are injective on one
column's value domain. -/
theorem seriesValueToString_inj_at {s : Series} {i j : Nat}
    (hi : i < s.length) (hj : j < s.length) :
    (seriesValueToString s i = seriesValueToString s j ↔ s.get i = s.get j) := by
  obtain ⟨nm, data⟩ := s
  cases data with
  | strs xs =>
    simp only [Series.length, ColData.length] at hi hj
    simp only [seriesValueToString, Series.get, ColData.getVal]
    rw [get?_eq_some_getD xs "" hi, get?_eq_some_getD xs "" hj]
    constructor
    · intro h
      rw [h]
    · intro h
      rw [Value.vstr.inj (Option.some.inj h)]
  | ints xs =>
    simp only [Series.length, ColData.length] at hi hj
    simp only [seriesValueToString, Series.get, ColData.getVal]
    rw [get?_eq_some_getD xs 0 hi, get?_eq_some_getD xs 0 hj]
    constructor
    · intro h
      rw [intRepr_inj h]
    · intro h
      exact congrArg (fun v => intRepr v) (Value.vint.inj (Option.some.inj h))
  | floats xs =>
    simp only [Series.length, ColData.length] at hi hj
    simp only [seriesValueToString, Series.get, ColData.getVal]
    rw [get?_eq_some_getD xs 0 hi, get?_eq_some_getD xs 0 hj]
    constructor
    · intro h
      rw [ratRepr_inj h]
    · intro h
      exact congrArg (fun v => ratRepr v) (Value.vfloat.inj (Option.some.inj h))
  | bools xs =>
    simp only [Series.length, ColData.length] at hi hj
    simp only [seriesValueToString, Series.get, ColData.getVal]
    rw [get?_eq_some_getD xs false hi, get?_eq_some_getD xs false hj]
    constructor
    · intro h
      cases hbi : xs.getD i false <;> cases hbj : xs.getD j false
      · rfl
      · rw [hbi, hbj] at h
        exact absurd h (by decide)
      · rw [hbi, hbj] at h
        exact absurd h (by decide)
      · rfl
    · intro h
      rw [Value.vbool.inj (Option.some.inj h)]
  | times xs =>
    simp only [Series.length, ColData.length] at hi hj
    simp only [seriesValueToString, Series.get, ColData.getVal]
    rw [get?_eq_some_getD xs 0 hi, get?_eq_some_getD xs 0 hj]
    constructor
    · intro h
      rw [intRepr_inj h]
    · intro h
      exact congrArg (fun v => timeRepr v) (Value.vtime.inj (Option.some.inj h))

/-- Two rows get the same composite group key exactly when their grouping
values agree in every grouping column. -/
theorem rowKey_eq_iff (gs : List Series) (i j : Nat)
    (hlen : ∀ s ∈ gs, i < s.length ∧ j < s.length) :
    (rowKey gs i = rowKey gs j ↔ ∀ s ∈ gs, s.get i = s.get j) := by
  unfold rowKey
  constructor
  · intro h
    have hm := encKeyStr_inj h
    rw [List.map_inj_left] at hm
    intro s hs
    exact (seriesValueToString_inj_at (hlen s hs).1 (hlen s hs).2).mp (hm s hs)
  · intro h
    refine congrArg encKeyStr ?_
    rw [List.map_inj_left]
    intro s hs
    exact (seriesValueToString_inj_at (hlen s hs).1 (hlen s hs).2).mpr (h s hs)

unseal Rat.add Rat.mul Rat.inv Rat.sub in
/-- C2: the length-prefixed composite group key is injective on
component-value tuples — equal encoded keys force equal component lists,
even when a component contains the NUL delimiter — so two in-range rows
receive the same key exactly when all their grouping-column values agree;
and on the regression fixture (category "a|b","a|b","a", value 1,2,10)
group-by sum yields exactly the two groups "a" ↦ 10 and "a|b" ↦ 3. -/
theorem c2_groupkey_injective (parts1 parts2 : List String)
    (h : encKeyStr parts1 = encKeyStr parts2) :
    parts1 = parts2 ∧
    (∀ (gs : List Series) (i j : Nat),
      (∀ s ∈ gs, i < s.length ∧ j < s.length) →
      (rowKey gs i = rowKey gs j ↔ ∀ s ∈ gs, s.get i = s.get j)) ∧
    (dfDemo.groupBy ["category"]).sumAgg =
      .ok ⟨[("category", ⟨"category", .strs ["a", "a|b"]⟩),
            ("value", ⟨"value", .floats [10, 3]⟩)],
           ["category", "value"], 2, none⟩ := by
  refine ⟨encKeyStr_inj h, fun gs i j hl => rowKey_eq_iff gs i j hl, ?_⟩
  decide

/-- Witness for C2: the delimiter-containing component list
["a|b", "a"] is recovered from its own encoding. -/
theorem c2_witness :
    encKeyStr ["a|b", "a"] = encKeyStr ["a|b", "a"] ∧
    (["a|b", "a"] : List String) = ["a|b", "a"] :=
  ⟨rfl, (c2_groupkey_injective ["a|b", "a"] ["a|b", "a"] rfl).1⟩

end Otters
